import Mathlib

/-!
# A shallow embedding of the apyshell `asteval` evaluator

This file embeds the core of `apyengine/asteval.py` (the `Interpreter`
node handlers and the `Procedure` calling convention) as executable Lean
definitions, and proves/refutes a fixed list of claims about it.

Conventions of the embedding:

* Machine state (`IState`) carries the fields the Python `Interpreter`
  instance carries: the symbol table, the readonly set, the error list,
  the `error_msg` slot, the interrupt sentinel, the return-value slot,
  the call-depth counter, the current line number and the abort/stop
  flags.
* Python's native exception raising/unwinding is modelled by the
  `ERes.exn` result; the authoritative fault channel is the `errors`
  list inside the state, exactly as in the source.
* All evaluation functions are fuel-indexed; `ERes.timeout` means the
  fuel ran out (the Python original may loop forever there).
* Values are immutable Lean data, so `copy.deepcopy` is the identity.
* The helper module `astutils.py` is not part of the sources; every
  definition taken from it instead of from `asteval.py` is marked
  `Modelled from the spec:` in its doc comment.
-/

set_option maxHeartbeats 1600000

/-- Modelled from the spec: the closed set of native exception classes used
for fault records and emulated `except`-clause matching (spec section 7 lists
the fault kinds; the builtin classes come from the missing
`astutils.make_symbol_table`). -/
inductive ExcClass where
  | valueErr
  | nameErr
  | typeErr
  | attrErr
  | keyErr
  | indexErr
  | synErr
  | runtimeErr
  | assertErr
  | notImplErr
  | warnErr
  | excBase
deriving DecidableEq, Repr

/-- Modelled from the spec: `isinstance(e_type(), htype)` matching by class;
`Exception` (here `excBase`) is the common base class of the others, all
other classes match only themselves. -/
def excSubclass (c h : ExcClass) : Bool :=
  c = h || h = ExcClass.excBase

/-- A native (host-level) exception in flight: the class and the message.
This models Python's raise/unwind mechanism, which the source uses only to
physically unwind to the nearest handler. -/
structure NativeExc where
  cls : ExcClass
  msg : String
deriving DecidableEq, Repr

/-- Literal constants (`ast.Constant` / `ast.Num` / `ast.Str` /
`ast.NameConstant`). -/
inductive Const where
  | intC (n : Int)
  | strC (s : String)
  | boolC (b : Bool)
  | noneC
deriving DecidableEq, Repr

/-- Comparison operators appearing in `ast.Compare` nodes. -/
inductive CmpOp where
  | lt | ltE | gt | gtE | eqOp | notEq
deriving DecidableEq, Repr

/-- Binary arithmetic operators appearing in `ast.BinOp` nodes. -/
inductive BinOp where
  | add | sub | mult
deriving DecidableEq, Repr

mutual

/-- Expression nodes of the embedded AST fragment.  Every constructor
carries the node's source line number (`node.lineno`), used by
`raise_exception`. -/
inductive Expr where
  | constE (ln : Nat) (c : Const)
  | nameE (ln : Nat) (id : String)
  | binopE (ln : Nat) (op : BinOp) (l r : Expr)
  | boolopE (ln : Nat) (isAnd : Bool) (vals : List Expr)
  | compareE (ln : Nat) (left : Expr) (rest : List (CmpOp × Expr))
  | callE (ln : Nat) (func : Expr) (args : List Expr)
      (kwords : List (String × Expr))
  | attrE (ln : Nat) (value : Expr) (attrName : String) (isLoad : Bool)
  | ifexpE (ln : Nat) (test body orelse : Expr)
  | listE (ln : Nat) (elts : List Expr)
  | tupleE (ln : Nat) (elts : List Expr)
  | listcompE (ln : Nat) (elt : Expr) (gens : List CompGen)

/-- One `ast.comprehension` generator with an `ast.Name` target:
target line number, target identifier, iterable expression, `if` guards.
(The source's tuple-target branch stores the whole tuple as a dict key and
is outside this fragment.) -/
inductive CompGen where
  | mk (tln : Nat) (tid : String) (iter : Expr) (ifs : List Expr)

/-- Assignment targets (`ast.Name` / `ast.Tuple`; attribute and subscript
targets are outside this fragment). -/
inductive Target where
  | nameT (ln : Nat) (id : String)
  | tupleT (ln : Nat) (elts : List Target)

/-- Statement nodes of the embedded AST fragment, each carrying its source
line number. -/
inductive Stmt where
  | exprS (ln : Nat) (e : Expr)
  | assignS (ln : Nat) (targets : List Target) (value : Expr)
  | deleteS (ln : Nat) (ids : List String)
  | ifS (ln : Nat) (test : Expr) (body orelse : List Stmt)
  | whileS (ln : Nat) (test : Expr) (body orelse : List Stmt)
  | forS (ln : Nat) (target : Target) (iter : Expr) (body orelse : List Stmt)
  | breakS (ln : Nat)
  | continueS (ln : Nat)
  | passS (ln : Nat)
  | functiondefS (ln : Nat) (fname : String) (args : List String)
      (defaults : List Expr) (vararg varkws : Option String)
      (body : List Stmt)
  | returnS (ln : Nat) (value : Option Expr)
  | tryS (ln : Nat) (body : List Stmt) (handlers : List Handler)
      (orelse finalbody : List Stmt)
  | raiseS (ln : Nat) (excE : Expr) (cause : Option Expr)
  | moduleS (body : List Stmt)

/-- One `ast.ExceptHandler`: optional exception-class name, optional
`as`-name, body. -/
inductive Handler where
  | mk (typeName : Option String) (asName : Option String)
      (body : List Stmt)

end

/-- Builtin callables installed in the initial symbol table.
Modelled from the spec: the table "comes pre-loaded with many functions
from Python's builtin and math module" via the missing
`astutils.make_symbol_table`; the fragment keeps the two callables the
claims need (`range`, `print`). -/
inductive BuiltinFn where
  | rangeFn
  | printFn
deriving DecidableEq, Repr

/-- Runtime values of the embedded language. -/
inductive Value where
  | noneV
  | boolV (b : Bool)
  | intV (n : Int)
  | strV (s : String)
  | listV (xs : List Value)
  | tupleV (xs : List Value)
  | dictV (xs : List (String × Value))
  | excClassV (c : ExcClass)
  | excInstV (c : ExcClass) (args : List Value)
  | procV (pname : String) (argnames : List String)
      (kwdefs : List (String × Value)) (vararg varkws : Option String)
      (pbody : List Stmt) (plineno : Nat)
  | builtinV (b : BuiltinFn)
  | interruptV (isBreak : Bool)
  | returnedNone

/-- The data of a `Procedure` object (`Procedure.__init__` fields;
`doc` only affects `__repr__` text and is elided). -/
structure ProcData where
  pname : String
  argnames : List String
  kwdefs : List (String × Value)
  vararg : Option String
  varkws : Option String
  pbody : List Stmt
  plineno : Nat

/-- View a value as a `Procedure`, if it is one
(`isinstance(func, Procedure)`). -/
def Value.asProc : Value → Option ProcData
  | .procV n a k v w b l => some ⟨n, a, k, v, w, b, l⟩
  | _ => none

/-- Python truthiness of an embedded value (`bool(v)`); AST node objects
returned by the interrupt path are truthy. -/
def truthy : Value → Bool
  | .noneV => false
  | .boolV b => b
  | .intV n => n ≠ 0
  | .strV s => s ≠ ""
  | .listV xs => !xs.isEmpty
  | .tupleV xs => !xs.isEmpty
  | .dictV xs => !xs.isEmpty
  | _ => true

/-- The symbol table: an insertion-ordered mapping from identifier to
value (the Python `dict` used as `self.symtable`). -/
abbrev Smap := List (String × Value)

/-- `tbl[k]` lookup (first, and with the update discipline below only,
binding for `k`). -/
def sget : Smap → String → Option Value
  | [], _ => none
  | (k, v) :: tl, k' => if k' = k then some v else sget tl k'

/-- `tbl[k] = v`: replace the binding in place if `k` is present, else
append it (Python dict update semantics, preserving insertion order). -/
def sset : Smap → String → Value → Smap
  | [], k, v => [(k, v)]
  | (k0, v0) :: tl, k, v =>
    if k = k0 then (k0, v) :: tl else (k0, v0) :: sset tl k v

/-- `del tbl[k]` / `tbl.pop(k)` once the key is known to be present:
remove the binding for `k`. -/
def sdel : Smap → String → Smap
  | [], _ => []
  | (k0, v0) :: tl, k => if k = k0 then sdel tl k else (k0, v0) :: sdel tl k

/-- `k in tbl`. -/
def shas (t : Smap) (k : String) : Bool :=
  (sget t k).isSome

/-- `tbl.update(other)`: fold the entries of `other` into `tbl` in order. -/
def supdate : Smap → Smap → Smap
  | t, [] => t
  | t, (k, v) :: tl => supdate (sset t k v) tl

/-- Python-visible class names (`builtins` keys), used in rendered
text. -/
def excClassName : ExcClass → String
  | .valueErr => "ValueError"
  | .nameErr => "NameError"
  | .typeErr => "TypeError"
  | .attrErr => "AttributeError"
  | .keyErr => "KeyError"
  | .indexErr => "IndexError"
  | .synErr => "SyntaxError"
  | .runtimeErr => "RuntimeError"
  | .assertErr => "AssertionError"
  | .notImplErr => "NotImplementedError"
  | .warnErr => "Warning"
  | .excBase => "Exception"

/-- The bundle of string-rendering functions at one recursion depth
(`str`/`repr` recurse through nested containers; the depth bound far
exceeds any value the embedded programs build). -/
structure StrB where
  pS : Value → String
  pR : Value → String
  pSL : List Value → String
  pSD : List (String × Value) → String
  sigKw : List (String × Value) → List String

/-- Depth-exhausted rendering (never reached at the fixed depth). -/
def strB0 : StrB where
  pS := fun _ => "..."
  pR := fun _ => "..."
  pSL := fun _ => "..."
  pSD := fun _ => "..."
  sigKw := fun _ => []

/-- One recursion level of the rendering functions. -/
def stepStrB (prev : StrB) : StrB where
  pS := fun v =>
    match v with
    | .noneV => "None"
    | .boolV b => if b then "True" else "False"
    | .intV n => toString n
    | .strV s => s
    | .listV xs => "[" ++ prev.pSL xs ++ "]"
    | .tupleV xs => "(" ++ prev.pSL xs ++ ")"
    | .dictV xs => "\x7b" ++ prev.pSD xs ++ "\x7d"
    | .excClassV c => "<class '" ++ excClassName c ++ "'>"
    | .excInstV _ args => prev.pSL args
    | .procV n argnames kwdefs vararg varkws _ _ =>
      let sig0 := String.intercalate ", " argnames
      let sig1 := match vararg with
        | some va => sig0 ++ ", *" ++ va
        | none => sig0
      let sig2 :=
        if kwdefs.isEmpty then sig1
        else (if sig1 = "" then "" else sig1 ++ ", ") ++
          String.intercalate ", " (prev.sigKw kwdefs)
      let sig3 := match varkws with
        | some vk => sig2 ++ ", **" ++ vk
        | none => sig2
      "<Procedure " ++ n ++ "(" ++ sig3 ++ ")>"
    | .builtinV .rangeFn => "<built-in function range>"
    | .builtinV .printFn => "<built-in function print>"
    | .interruptV isBreak => if isBreak then "<ast.Break>" else "<ast.Continue>"
    | .returnedNone => "<ReturnedNone>"
  pR := fun v =>
    match v with
    | .strV s => "'" ++ s ++ "'"
    | v => prev.pS v
  pSL := fun xs =>
    match xs with
    | [] => ""
    | [v] => prev.pR v
    | v :: tl => prev.pR v ++ ", " ++ prev.pSL tl
  pSD := fun xs =>
    match xs with
    | [] => ""
    | [(k, v)] => "'" ++ k ++ "': " ++ prev.pR v
    | (k, v) :: tl => "'" ++ k ++ "': " ++ prev.pR v ++ ", " ++ prev.pSD tl
  sigKw := fun xs =>
    match xs with
    | [] => []
    | (k, v) :: tl => (k ++ "=" ++ prev.pS v) :: prev.sigKw tl

/-- The rendering bundle at depth `n`. -/
def strBAt (n : Nat) : StrB :=
  Nat.rec strB0 (fun _ prev => stepStrB prev) n

/-- `str(v)` / `"%s" % v` of an embedded value. -/
def pyStr (v : Value) : String := (strBAt 64).pS v

/-- `repr(v)` of an embedded value. -/
def pyRepr (v : Value) : String := (strBAt 64).pR v

/-- `' '.join`-style rendering used for exception-instance text. -/
def pyStrJoin : List Value → String
  | [] => ""
  | [v] => pyStr v
  | v :: tl => pyStr v ++ " " ++ pyStrJoin tl


/-- A fault record on the error channel.  The `exc`/`msg` fields mirror
`ExceptionHolder.exc` / `.msg` after construction (`msg` is later
overwritten in place by `raise_exception`, hence `Option`); `infoCls` /
`infoMsg` are what `on_try` reads back as `exc_info[0]` / `exc_info[1]`.
Modelled from the spec: `ExceptionHolder` lives in the missing
`astutils.py`; per spec section 3 a fault record stores "the
native-exception class it should be reported as (for emulated
except-clause matching by class name)" and the message, defaulted from
the exception being handled when none was passed explicitly. -/
structure ExcHolder where
  exc : Option ExcClass
  msg : Option String
  infoCls : Option ExcClass
  infoMsg : String
  exprTxt : Option String
  lineno : Nat
deriving DecidableEq, Repr

/-- Build an `ExcHolder` (modelled `ExceptionHolder.__init__`): the class
and message default from the ambient native exception being handled. -/
def mkHolder (exc : Option ExcClass) (msg : String)
    (exprTxt : Option String) (lineno : Nat)
    (ambient : Option NativeExc) : ExcHolder :=
  let excD := match exc with
    | some c => some c
    | none => ambient.map (·.cls)
  let msgD := if msg = "" then ((ambient.map (·.msg)).getD "") else msg
  ⟨excD, some msgD, excD, msgD, exprTxt, lineno⟩

/-- The `self._interrupt` sentinel: `None`, an `ast.Break`, an
`ast.Continue`, or the `ast.Raise()` stored by `raise_exception`. -/
inductive Interrupt where
  | noneI
  | brkI
  | contI
  | raisedI
deriving DecidableEq, Repr

/-- What `raise_exception` needs to know about the `node` argument:
absent (`None`), an `ast.Module`, or an ordinary node with its
`lineno`. -/
inductive NodeK where
  | noNode
  | moduleK
  | nodeK (ln : Nat)
deriving DecidableEq, Repr

/-- The mutable evaluator state: the `Interpreter` instance fields
touched by the embedded handlers. -/
structure IState where
  symtable : Smap
  readonly : List String
  noDeepcopy : List String
  errors : List ExcHolder
  errorMsg : Option String
  exprTxt : Option String
  interrupt : Interrupt
  retval : Option Value
  calldepth : Nat
  lineno : Nat
  abortF : Bool
  stopF : Bool
  useNumpy : Bool

/-- Result of running an embedded evaluation step: normal value plus
state, a native exception in flight plus the state at the raise point,
or fuel exhaustion. -/
inductive ERes (α : Type) where
  | ok (v : α) (st : IState)
  | exn (e : NativeExc) (st : IState)
  | timeout

/-- Sequencing in the `ERes` result (native exceptions propagate). -/
def ERes.bind {α β : Type} : ERes α → (α → IState → ERes β) → ERes β
  | .ok v st, f => f v st
  | .exn e st, _ => .exn e st
  | .timeout, _ => .timeout

/-- Overwrite the `msg` of the first fault record
(`self.error[0].msg = self.error_msg`). -/
def setHeadMsg (errs : List ExcHolder) (m : Option String) : List ExcHolder :=
  match errs with
  | [] => []
  | h :: tl => { h with msg := m } :: tl

/-- `Interpreter.raise_exception`: append a fault record, set the
interrupt sentinel to `ast.Raise()`, update `error_msg` and the
`errline_` table entry, rewrite the first record's message, and raise a
native exception (the explicit class if given, else the first record's
class, else — `exc` being `None` — Python's attempt to call `None`
raises a `TypeError`).  `ambient` is the native exception being handled
at the call site, if any (it feeds the modelled `ExceptionHolder`
defaulting). -/
def raiseExc (node : NodeK) (exc : Option ExcClass) (msg : String)
    (exprArg : Option String) (lineno : Nat) (ambient : Option NativeExc)
    (st : IState) : NativeExc × IState :=
  let ml := msg.length
  let exprTxt := match exprArg with
    | some e => some e
    | none => st.exprTxt
  let lineno' := match node with
    | .nodeK ln => ln
    | _ => lineno
  let h := mkHolder exc msg exprTxt lineno' ambient
  let st := { st with interrupt := .raisedI, errors := st.errors ++ [h] }
  let st := if ml > 0 then { st with errorMsg := some msg } else st
  let st :=
    if lineno' ≠ 0 ∧ ml > 0 then
      { st with
          errorMsg := st.errorMsg.map (fun m => m ++ " at line " ++ toString lineno'),
          symtable := sset st.symtable "errline_" (.intV lineno') }
    else st
  let excF : Option ExcClass := match exc with
    | some c => some c
    | none => (st.errors.head?.map (·.exc)).getD none
  let st := { st with errors := setHeadMsg st.errors st.errorMsg }
  match excF with
  | some c => (⟨c, st.errorMsg.getD ""⟩, st)
  | none => (⟨.typeErr, "'NoneType' object is not callable"⟩, st)

/-- Lift the pair produced by `raiseExc` into an evaluation result. -/
def ERes.ofRaise {α : Type} (p : NativeExc × IState) : ERes α :=
  .exn p.1 p.2


/-- Is the first character list an initial segment of the second?
(Kernel-reducible replacement for byte-level string prefix tests.) -/
def chInit : List Char → List Char → Bool
  | [], _ => true
  | _, [] => false
  | a :: as, b :: bs => a = b && chInit as bs

/-- `s.endswith(p)` over the character lists. -/
def strEndsWith (s p : String) : Bool :=
  chInit p.data.reverse s.data.reverse

/-- `s.startswith(p)` over the character lists. -/
def strStartsWith (s p : String) : Bool :=
  chInit p.data s.data

/-- Modelled from the spec: the reserved words rejected by the missing
`astutils.valid_symbol_name` ("invalid symbol name (reserved word?)"). -/
def RESERVED_WORDS : List String :=
  ["and", "as", "assert", "break", "class", "continue", "def", "del",
   "elif", "else", "except", "exec", "finally", "for", "from", "global",
   "if", "import", "in", "is", "lambda", "not", "or", "pass", "print",
   "raise", "return", "try", "while", "with", "True", "False", "None",
   "eval", "execfile", "__import__", "__package__"]

/-- Is `s` a syntactically valid Python identifier? -/
def isIdentifier (s : String) : Bool :=
  match s.data with
  | [] => false
  | c :: tl => (c.isAlpha || c = '_') &&
      tl.all (fun d => d.isAlphanum || d = '_')

/-- Modelled from the spec: `valid_symbol_name` from the missing
`astutils.py` — a syntactically valid identifier that is not a reserved
word; per the spec's reserved-suffix rule ("identifiers ending in `_`
are reserved for host-registered names and can never be created,
rebound, or deleted from inside a script"; "scripts can neither define,
assign, nor delete them"), names ending in `_` are rejected. -/
def valid_symbol_name (s : String) : Bool :=
  isIdentifier s && !(RESERVED_WORDS.contains s) && !(strEndsWith s "_")

/-- Modelled from the spec: the explicit unsafe-attribute blocklist
(`UNSAFE_ATTRS` in the missing `astutils.py`): "dunder-shaped names
(`__x__`) and an explicit unsafe-name list are denied outright". -/
def UNSAFE_ATTRS : List String :=
  ["func_globals", "func_code", "func_closure", "im_class", "im_func",
   "im_self", "gi_code", "gi_frame", "f_locals"]

/-- Coerce a value to a Python number for arithmetic/ordering
(`bool` is an `int` subclass). -/
def asNum : Value → Option Int
  | .intV n => some n
  | .boolV b => some (if b then 1 else 0)
  | _ => none

mutual

/-- Python `==` on the embedded value universe (numeric cross-type
equality, structural equality on containers, `False` across unrelated
types). -/
def pyEq : Value → Value → Bool
  | .noneV, .noneV => true
  | .strV a, .strV b => a = b
  | .listV a, .listV b => pyEqList a b
  | .tupleV a, .tupleV b => pyEqList a b
  | .excClassV a, .excClassV b => a = b
  | a, b =>
    match asNum a, asNum b with
    | some x, some y => x = y
    | _, _ => false

def pyEqList : List Value → List Value → Bool
  | [], [] => true
  | a :: atl, b :: btl => pyEq a b && pyEqList atl btl
  | _, _ => false

end

/-- Modelled from the spec: the comparison-operator entries of the
missing `astutils.op2func` table ("dispatched through an operator
table"); unorderable operand types raise a native `TypeError`, as in
Python 3. -/
def cmpFunc (op : CmpOp) (a b : Value) : Except NativeExc Value :=
  match op with
  | .eqOp => .ok (.boolV (pyEq a b))
  | .notEq => .ok (.boolV (!pyEq a b))
  | _ =>
    match a, b with
    | .strV x, .strV y =>
      match op with
      | .lt => .ok (.boolV (decide (x < y)))
      | .ltE => .ok (.boolV (x = y || decide (x < y)))
      | .gt => .ok (.boolV (decide (y < x)))
      | .gtE => .ok (.boolV (x = y || decide (y < x)))
      | _ => .ok (.boolV false)
    | _, _ =>
      match asNum a, asNum b with
      | some x, some y =>
        match op with
        | .lt => .ok (.boolV (decide (x < y)))
        | .ltE => .ok (.boolV (decide (x ≤ y)))
        | .gt => .ok (.boolV (decide (y < x)))
        | .gtE => .ok (.boolV (decide (y ≤ x)))
        | _ => .ok (.boolV false)
      | _, _ =>
        .error ⟨.typeErr, "unorderable types in comparison"⟩

/-- Modelled from the spec: the binary-operator entries of the missing
`astutils.op2func` table. -/
def binFunc (op : BinOp) (a b : Value) : Except NativeExc Value :=
  match op, a, b with
  | .add, .strV x, .strV y => .ok (.strV (x ++ y))
  | .add, .listV x, .listV y => .ok (.listV (x ++ y))
  | .add, .tupleV x, .tupleV y => .ok (.tupleV (x ++ y))
  | _, _, _ =>
    match asNum a, asNum b with
    | some x, some y =>
      match op with
      | .add => .ok (.intV (x + y))
      | .sub => .ok (.intV (x - y))
      | .mult => .ok (.intV (x * y))
    | _, _ =>
      .error ⟨.typeErr, "unsupported operand type(s)"⟩

/-- Modelled from the spec: the boolean-operator entries of the missing
`astutils.op2func` table (Python `a and b` / `a or b` on values). -/
def boolFunc (isAnd : Bool) (a b : Value) : Value :=
  if isAnd then (if truthy a then b else a)
  else (if truthy a then a else b)

/-- `builtins.get(hnd.type.id, None)`: resolve an exception-class name
against the builtins dict (modelled from the spec's fault-kind list). -/
def builtinClassLookup : String → Option ExcClass
  | "ValueError" => some .valueErr
  | "NameError" => some .nameErr
  | "TypeError" => some .typeErr
  | "AttributeError" => some .attrErr
  | "KeyError" => some .keyErr
  | "IndexError" => some .indexErr
  | "SyntaxError" => some .synErr
  | "RuntimeError" => some .runtimeErr
  | "AssertionError" => some .assertErr
  | "NotImplementedError" => some .notImplErr
  | "Warning" => some .warnErr
  | "Exception" => some .excBase
  | _ => none

/-- The host `getattr` on embedded values (spec: "a capability-bounded
attribute read").  `Procedure.__dir__` exposes `name`; exception
instances expose `args`; everything else in the embedded universe has no
readable attributes. -/
def getattrVal : Value → String → Option Value
  | .procV n _ _ _ _ _ _, "name" => some (.strV n)
  | .excInstV _ args, "args" => some (.tupleV args)
  | _, _ => none

/-- `range(n)` realized as the list of its elements (the `on_for` /
comprehension handlers only ever iterate the result).  Modelled from the
spec: `range` comes from the missing `astutils.make_symbol_table`. -/
def rangeList (n : Int) : List Value :=
  (List.range n.toNat).map (fun i => Value.intV (Int.ofNat i))

/-- The initial symbol table of a fresh `Interpreter` (modelled
`make_symbol_table` contents restricted to the claims' needs, plus the
`print` and `errline_` entries installed by `Interpreter.__init__`). -/
def initSymtable : Smap :=
  [("range", .builtinV .rangeFn),
   ("ValueError", .excClassV .valueErr),
   ("NameError", .excClassV .nameErr),
   ("TypeError", .excClassV .typeErr),
   ("KeyError", .excClassV .keyErr),
   ("AttributeError", .excClassV .attrErr),
   ("Exception", .excClassV .excBase),
   ("print", .builtinV .printFn),
   ("errline_", .intV 0)]

/-- The state of a fresh `Interpreter` with default arguments:
`readonly_symbols = {'errline_'} | set(symtable)` (because
`builtins_readonly` defaults to `True`), `no_deepcopy` holding the
callable entries, all flags clear. -/
def initState : IState where
  symtable := initSymtable
  readonly := "errline_" :: initSymtable.map Prod.fst
  noDeepcopy :=
    ["range", "ValueError", "NameError", "TypeError", "KeyError",
     "AttributeError", "Exception", "print"]
  errors := []
  errorMsg := none
  exprTxt := none
  interrupt := .noneI
  retval := none
  calldepth := 0
  lineno := 0
  abortF := false
  stopF := false
  useNumpy := false

/-- `Interpreter.abortrun()`: set the abort flag. -/
def abortrun (st : IState) : IState := { st with abortF := true }

/-- `Interpreter.stoprun()`: set the stop flag. -/
def stoprun (st : IState) : IState := { st with stopF := true }

/-- `Interpreter.addSymbol(name, val)` (the host's thread-safe setter). -/
def addSymbol (st : IState) (name : String) (val : Value) : IState :=
  { st with symtable := sset st.symtable name val }

/-- Dispatch-level wrapper around a node handler: the `try/except` in
`Interpreter.run` — a native exception from the handler is either turned
into a fresh `raise_exception(node, expr=expr)` (default `with_raise`)
or swallowed, making `run` return `None` with the state as mutated so
far. -/
def wrapRaise (withRaise : Bool) (nk : NodeK) (exprArg : Option String)
    (r : ERes Value) : ERes Value :=
  match r with
  | .exn e st =>
    if withRaise then .ofRaise (raiseExc nk none "" exprArg 0 (some e) st)
    else .ok .noneV st
  | r => r

/-- Source line of an expression node. -/
def Expr.lnOf : Expr → Nat
  | .constE ln _ => ln
  | .nameE ln _ => ln
  | .binopE ln _ _ _ => ln
  | .boolopE ln _ _ => ln
  | .compareE ln _ _ => ln
  | .callE ln _ _ _ => ln
  | .attrE ln _ _ _ => ln
  | .ifexpE ln _ _ _ => ln
  | .listE ln _ => ln
  | .tupleE ln _ => ln
  | .listcompE ln _ _ => ln

/-- The `raise_exception` view of an expression node. -/
def nkOfExpr (e : Expr) : NodeK := .nodeK e.lnOf

/-- The `raise_exception` view of a statement node (`ast.Module` has no
`lineno` and is treated specially). -/
def stmtNodeK : Stmt → NodeK
  | .moduleS _ => .moduleK
  | .exprS ln _ => .nodeK ln
  | .assignS ln _ _ => .nodeK ln
  | .deleteS ln _ => .nodeK ln
  | .ifS ln _ _ _ => .nodeK ln
  | .whileS ln _ _ _ => .nodeK ln
  | .forS ln _ _ _ _ => .nodeK ln
  | .breakS ln => .nodeK ln
  | .continueS ln => .nodeK ln
  | .passS ln => .nodeK ln
  | .functiondefS ln _ _ _ _ _ _ => .nodeK ln
  | .returnS ln _ => .nodeK ln
  | .tryS ln _ _ _ _ => .nodeK ln
  | .raiseS ln _ _ => .nodeK ln

/-- `getattr(func, '__name__', str(func))` for the call-failure
message. -/
def funcGetName : Value → String
  | .procV n _ _ _ _ _ _ => n
  | .builtinV .rangeFn => "range"
  | .builtinV .printFn => "print"
  | .excClassV c => excClassName c
  | v => pyStr v

/-- `hasattr(func, '__call__') or isinstance(func, type)`. -/
def callableV : Value → Bool
  | .procV _ _ _ _ _ _ _ => true
  | .builtinV _ => true
  | .excClassV _ => true
  | _ => false

/-- The elements Python iterates over for a value (`for val in v`);
`none` means the value is not iterable (native `TypeError`). -/
def iterElems : Value → Option (List Value)
  | .listV xs => some xs
  | .tupleV xs => some xs
  | .strV s => some (s.data.map (fun c => Value.strV (String.mk [c])))
  | .dictV xs => some (xs.map (fun kv => Value.strV kv.1))
  | _ => none

/-- `' '.join(out.args)` — joining non-strings raises a native
`TypeError`. -/
def joinStrs : List Value → Except NativeExc String
  | [] => .ok ""
  | [.strV s] => .ok s
  | .strV s :: tl => (joinStrs tl).map (fun r => s ++ " " ++ r)
  | _ => .error ⟨.typeErr, "sequence item: expected str instance"⟩

/-- The body-statement preprocessing at the top of `Procedure.__call__`'s
execution loop: fetch `node.test` / `node.body` / `node.value` and, when
that value is a `Call`, the callee's `.id` as the `expr` tag.  Statement
kinds without a `value` field make the attribute access raise a native
`AttributeError`, exactly as in the source. -/
def bodyTag (s : Stmt) : Except NativeExc String :=
  let tagOfVal : Expr → Except NativeExc String := fun e =>
    match e with
    | .callE _ f _ _ =>
      match f with
      | .nameE _ fid => .ok fid
      | _ => .error ⟨.attrErr, "node object has no attribute 'id'"⟩
    | _ => .ok "<>"
  match s with
  | .ifS _ t _ _ => tagOfVal t
  | .whileS _ t _ _ => tagOfVal t
  | .forS _ _ _ _ _ => .ok "<>"
  | .exprS _ e => tagOfVal e
  | .assignS _ _ e => tagOfVal e
  | .returnS _ (some e) => tagOfVal e
  | .returnS _ none => .ok "<>"
  | _ => .error ⟨.attrErr, "node object has no attribute 'value'"⟩

/-- The native-exception classes caught by the `except (ValueError,
LookupError, TypeError, NameError, AttributeError)` clause around the
keyword-binding steps of `Procedure.__call__`. -/
def bindCatchable (c : ExcClass) : Bool :=
  match c with
  | .valueErr | .keyErr | .indexErr | .typeErr | .nameErr | .attrErr => true
  | _ => false

/-- Keyword-to-positional promotion (`Procedure.__call__`: "check for
too few arguments, but the correct keyword given"). -/
def promoteKw : List String → List Value → Smap → List Value × Smap
  | [], args, kwargs => (args, kwargs)
  | n :: tl, args, kwargs =>
    match sget kwargs n with
    | some v => promoteKw tl (args ++ [v]) (sdel kwargs n)
    | none => promoteKw tl args kwargs

/-- Fill the optional keyword-with-default parameters (`for key, val in
self.kwargs: ...`), returning the remaining keyword dict and the updated
local-bindings dict. -/
def applyKwdefs : List (String × Value) → Smap → Smap → Smap × Smap
  | [], kwargs, sl => (kwargs, sl)
  | (key, defv) :: tl, kwargs, sl =>
    match sget kwargs key with
    | some v => applyKwdefs tl (sdel kwargs key) (sset sl key v)
    | none => applyKwdefs tl kwargs (sset sl key defv)

/-- Distribute surplus positional arguments over the keyword-parameter
names (`for i, xarg in enumerate(args[nargs_expected:]) ...`). -/
def fillExtraPositional : List (String × Value) → Smap → Smap
  | [], kwargs => kwargs
  | (kwName, xarg) :: tl, kwargs =>
    let kwargs := if shas kwargs kwName then kwargs else sset kwargs kwName xarg
    fillExtraPositional tl kwargs

/-- The argument-binding phase of `Procedure.__call__` (everything up to
the `shadowpars` snapshot): produce the `symlocals` dict or raise. -/
def procBindE (pd : ProcData) (args0 : List Value) (kwargs0 : Smap)
    (st : IState) : ERes Smap :=
  let nexp := pd.argnames.length
  let (args, kwargs) :=
    if args0.length < nexp ∧ kwargs0.length > 0 then
      promoteKw (pd.argnames.drop args0.length) args0 kwargs0
    else (args0, kwargs0)
  let nargs := args.length
  if nargs < nexp then
    .ofRaise (raiseExc .noNode (some .typeErr)
      (pd.pname ++ "() takes at least " ++ toString nexp ++
        " arguments, got " ++ toString nargs) none 0 none st)
  else
  match pd.argnames.find? (fun targ => shas kwargs targ) with
  | some targ =>
    .ofRaise (raiseExc .noNode (some .typeErr)
      ("multiple values for keyword argument '" ++ targ ++
        "' in Procedure " ++ pd.pname) none pd.plineno none st)
  | none =>
  -- (the `nargs != nargs_expected` / `nargs < nargs_expected` block is
  -- unreachable: the shortage case already raised above)
  let tooMany := nargs > nexp ∧ pd.vararg = none ∧
      nargs - nexp > pd.kwdefs.length
  if tooMany then
    .ofRaise (raiseExc .noNode (some .typeErr)
      ("too many arguments for " ++ pd.pname ++ "() expected at most " ++
        toString (pd.kwdefs.length + nexp) ++ ", got " ++ toString nargs)
      none 0 none st)
  else
  let kwargs :=
    if nargs > nexp ∧ pd.vararg = none then
      fillExtraPositional ((pd.kwdefs.map Prod.fst).zip (args.drop nexp)) kwargs
    else kwargs
  -- add parameters to the local symbol table (`args.pop(0)` per name)
  let symlocals := (pd.argnames.zip (args.take nexp)).foldl
    (fun sl kv => sset sl kv.1 kv.2) []
  let remaining := args.drop nexp
  -- the `try:` block around vararg / keyword-default / varkw binding
  let inner : ERes Smap :=
    let symlocals := match pd.vararg with
      | some va => sset symlocals va (.tupleV remaining)
      | none => symlocals
    let (kwargs, symlocals) := applyKwdefs pd.kwdefs kwargs symlocals
    match pd.varkws with
    | some vk => .ok (sset symlocals vk (.dictV kwargs)) st
    | none =>
      if kwargs.isEmpty then .ok symlocals st
      else
        .ofRaise (raiseExc .noNode (some .typeErr)
          ("extra keyword arguments for Procedure " ++ pd.pname ++ " (" ++
            String.intercalate "," (kwargs.map Prod.fst) ++ ")")
          none pd.plineno none st)
  match inner with
  | .exn e st =>
    if bindCatchable e.cls then
      .ofRaise (raiseExc .noNode none
        ("incorrect arguments for Procedure " ++ pd.pname) none
        pd.plineno (some e) st)
    else .exn e st
  | r => r

/-- The shadow snapshot (`for k in symlocals: if k in symtable:
shadowpars[k] = symtable[k]`).  (A duplicate bound name yields a
duplicate entry carrying the same snapshot value, observationally equal
to the dict the source builds.) -/
def shadowOf : Smap → Smap → Smap
  | [], _ => []
  | (k, _) :: tl, tbl =>
    match sget tbl k with
    | some v => (k, v) :: shadowOf tl tbl
    | none => shadowOf tl tbl

/-- Boolean membership in a key list (`k in dict` over the keys). -/
def strMem : List String → String → Bool
  | [], _ => false
  | a :: tl, k => k = a || strMem tl k

/-- The first restore loop (`for k in symlocals: if k not in shadowpars:
del symtable[k]`); deleting an absent key raises a native `KeyError`. -/
def delNonShadowed : List String → List String → Smap →
    Except NativeExc Smap
  | [], _, t => .ok t
  | k :: tl, spKeys, t =>
    if strMem spKeys k then delNonShadowed tl spKeys t
    else if shas t k then delNonShadowed tl spKeys (sdel t k)
    else .error ⟨.keyErr, k⟩

/-- The full "restore the global symbols" epilogue of
`Procedure.__call__`: delete the non-shadowed bound names, then write
the shadowed snapshots back. -/
def restoreGlobals (symlocals shadowpars : Smap) (t : Smap) :
    Except NativeExc Smap :=
  (delNonShadowed (symlocals.map Prod.fst) (shadowpars.map Prod.fst) t).map
    (fun t => supdate t shadowpars)

/-- How the first pass of `on_listcomp` can fail: an invalid target
name (reported with the target's line and name, raised through
`raise_exception`), or the `saved_syms[...] = copy.deepcopy(...)`
statement — `asteval.py` never imports `copy`, so evaluating its
right-hand side raises a native `NameError: name 'copy' is not
defined` whenever a target is already in the symbol table. -/
inductive CompErr where
  | badName (tln : Nat) (tid : String)
  | copyErr
deriving DecidableEq, Repr

/-- First pass of `on_listcomp` over the generators, processed in
source order with the accumulators threaded through (`locals` keeps
dict insertion order): validate each target name, initialize its
accumulator list, and — when the target is already bound — fail with
the native `NameError` that the unimported `copy.deepcopy` raises
before `saved_syms` is ever written (so on success `saved` is always
the empty dict it started as). -/
def compPassOne : List CompGen → Smap → List String → Smap → Smap →
    Except CompErr (Smap × Smap)
  | [], _, _, locals, saved => .ok (locals, saved)
  | .mk tln tid _ _ :: tl, tbl, ro, locals, saved =>
    if !valid_symbol_name tid || ro.contains tid then
      .error (.badName tln tid)
    else
      let locals := sset locals tid (.listV [])
      if shas tbl tid then .error .copyErr
      else compPassOne tl tbl ro locals saved

/-- The core of `on_attribute` after the target value has been read:
deny dunder-shaped and blocklisted names outright (re-evaluating the
target only to format the message), otherwise attempt the host
attribute read `ga` and convert a miss into an `AttributeError`
fault. -/
def attrCore (ga : Value → String → Option Value) (nk : NodeK)
    (a : String) (sym : Value) (reEval : IState → ERes Value)
    (st : IState) : ERes Value :=
  if !(UNSAFE_ATTRS.contains a || (strStartsWith a "__" && strEndsWith a "__")) then
    match ga sym a with
    | some v => .ok v st
    | none =>
      ERes.bind (reEval st) fun obj st =>
        .ofRaise (raiseExc nk (some .attrErr)
          ("no attribute '" ++ a ++ "' for " ++ pyStr obj) none 0 none st)
  else
    ERes.bind (reEval st) fun obj st =>
      .ofRaise (raiseExc nk (some .attrErr)
        ("cannnot access attribute '" ++ a ++ "' for " ++ pyStr obj)
        none 0 none st)

/-- Value of a literal constant node. -/
def constVal : Const → Value
  | .intC n => .intV n
  | .strC s => .strV s
  | .boolC b => .boolV b
  | .noneC => .noneV

/-- The bundle of all node handlers and loops at one fuel level:
each field is one of the mutually recursive evaluation functions,
with the fuel argument factored into the `interpAt` iteration. -/
structure Interp where
  runExpr : Expr → IState → ERes Value
  runStmt : Bool → Option String → Option Nat → Stmt → IState → ERes Value
  dispatchExpr : Expr → IState → ERes Value
  dispatchStmt : Stmt → IState → ERes Value
  runSeq : List Stmt → IState → ERes Value
  evalExprs : List Expr → IState → ERes (List Value)
  evalKwords : Nat → List (String × Expr) → Smap → IState → ERes Smap
  compLoop : List (CmpOp × Expr) → Value → List Value → IState → ERes (List Value)
  boolLoop : Bool → List Expr → Value → IState → ERes Value
  nodeAssign : Target → Value → IState → ERes Value
  assignZip : List Target → List Value → IState → ERes Value
  assignTargets : List Target → Value → IState → ERes Value
  delLoop : Nat → List String → IState → ERes Value
  runBody : List Stmt → IState → ERes Value
  whileLoop : Expr → List Stmt → IState → ERes Bool
  forIter : Target → List Stmt → List Value → IState → ERes Bool
  callValue : Nat → Value → List Value → Smap → IState → ERes Value
  procCall : ProcData → List Value → Smap → IState → ERes Value
  procBody : ProcData → List Stmt → IState → ERes (Option Value)
  tryLoop : List Stmt → List Handler → Bool → IState → ERes Bool
  scanHandlers : List Handler → Option ExcClass → Value → IState → ERes Value
  compPass2 : List CompGen → Smap → IState → ERes Smap
  compIterLoop : String → List Expr → List Value → Smap → IState → ERes Smap
  compIfs : List Expr → Bool → IState → ERes Bool
  compRec : Expr → Smap → IState → ERes (List Value)
  compRecLoop : Expr → String → List Value → Smap → IState → ERes (List Value)

/-- `Interpreter.run` on an expression node: the stop/abort/pending-fault
/return/interrupt preamble, then dispatch, wrapping handler exceptions
through `raise_exception`. -/
def step_runExpr (prev : Interp) : Expr → IState → ERes Value
  | e, st =>
    if st.stopF then .ok .noneV st
    else if st.abortF then
      .ofRaise (raiseExc (nkOfExpr e) none "execution aborted" none 0 none st)
    else if !st.errors.isEmpty then .ok .noneV st
    else
      match st.retval with
      | some r => .ok r st
      | none =>
        match st.interrupt with
        | .brkI => .ok (.interruptV true) st
        | .contI => .ok (.interruptV false) st
        | _ => wrapRaise true (nkOfExpr e) none (prev.dispatchExpr e st)

/-- `Interpreter.run` on a statement node (the callers that pass `expr`,
`lineno` or `with_raise=False` do so here). -/
def step_runStmt (prev : Interp) : Bool → Option String → Option Nat → Stmt → IState → ERes Value
  | wr, exprArg, lnArg, s, st =>
    if st.stopF then .ok .noneV st
    else if st.abortF then
      .ofRaise (raiseExc (stmtNodeK s) none "execution aborted" none 0 none st)
    else if !st.errors.isEmpty then .ok .noneV st
    else
      match st.retval with
      | some r => .ok r st
      | none =>
        match st.interrupt with
        | .brkI => .ok (.interruptV true) st
        | .contI => .ok (.interruptV false) st
        | _ =>
          let st := match lnArg with
            | some l => { st with lineno := l }
            | none => st
          let st := match exprArg with
            | some ex => { st with exprTxt := some ex }
            | none => st
          wrapRaise wr (stmtNodeK s) exprArg (prev.dispatchStmt s st)

/-- The node-kind dispatch for expressions (the `on_xxx` handlers). -/
def step_dispatchExpr (prev : Interp) : Expr → IState → ERes Value
  | e, st =>
    match e with
    | .constE _ c => .ok (constVal c) st
    | .nameE ln id =>
      -- on_name, Load context (Param/Del contexts arise only for
      -- targets, which the fragment carries as strings already)
      match sget st.symtable id with
      | some v => .ok v st
      | none =>
        .ofRaise (raiseExc (.nodeK ln) (some .nameErr)
          ("name '" ++ id ++ "' is not defined") none 0 none st)
    | .binopE _ op l r =>
      ERes.bind (prev.runExpr l st) fun lv st =>
      ERes.bind (prev.runExpr r st) fun rv st =>
      match binFunc op lv rv with
      | .ok v => .ok v st
      | .error ex => .exn ex st
    | .boolopE _ isAnd vals =>
      match vals with
      | [] => .exn ⟨.indexErr, "list index out of range"⟩ st
      | v0 :: tl =>
        ERes.bind (prev.runExpr v0 st) fun val st =>
        if (isAnd && truthy val) || (!isAnd && !truthy val) then
          prev.boolLoop isAnd tl val st
        else .ok val st
    | .compareE _ left rest =>
      ERes.bind (prev.runExpr left st) fun lval st =>
      ERes.bind (prev.compLoop rest lval [] st) fun results st =>
      match results with
      | [r] => .ok r st
      | _ => .ok (results.foldl (fun o r => if truthy o then r else o)
          (.boolV true)) st
    | .callE ln f args kws =>
      -- on_call
      ERes.bind (prev.runExpr f st) fun func st =>
      if !callableV func then
        .ofRaise (raiseExc (.nodeK ln) (some .typeErr)
          ("'" ++ pyStr func ++ "' is not callable!!") none 0 none st)
      else
      ERes.bind (prev.evalExprs args st) fun argv st =>
      -- (py3.8 `ast.Call` has no `starargs`/`kwargs` attributes, so both
      -- `getattr(..., None)` probes yield `None`; the `func == print`
      -- branch only routes host I/O and has no observable state here)
      ERes.bind (prev.evalKwords ln kws [] st) fun kwv st =>
      let isProc := func.asProc.isSome
      let st := if isProc then { st with calldepth := st.calldepth + 1 }
        else st
      match prev.callValue ln func argv kwv st with
      | .ok out st =>
        .ok out (if isProc then { st with calldepth := st.calldepth - 1 }
          else st)
      | .exn ex st =>
        -- `except Exception as ex:` wraps the failure, `finally:`
        -- decrements the depth during the unwind
        match raiseExc (.nodeK ln) none
            ("Error running function call '" ++ funcGetName func ++
              "' with args " ++ pyStr (.listV argv) ++ " and kwargs " ++
              pyStr (.dictV kwv) ++ ": " ++ ex.msg) none 0 (some ex) st with
        | (e2, st) =>
          .exn e2 (if isProc then { st with calldepth := st.calldepth - 1 }
            else st)
      | .timeout => .timeout
    | .attrE ln ve a isLoad =>
      -- on_attribute (Store context rejected, Del context is outside
      -- the fragment)
      if !isLoad then
        .ofRaise (raiseExc (.nodeK ln) (some .runtimeErr)
          "attribute for storage: shouldn't be here!" none 0 none st)
      else
        ERes.bind (prev.runExpr ve st) fun sym st =>
        attrCore getattrVal (.nodeK ln) a sym (fun st => prev.runExpr ve st) st
    | .ifexpE _ t b o =>
      ERes.bind (prev.runExpr t st) fun tv st =>
      prev.runExpr (if truthy tv then b else o) st
    | .listE _ elts =>
      ERes.bind (prev.evalExprs elts st) fun vs st => .ok (.listV vs) st
    | .tupleE _ elts =>
      ERes.bind (prev.evalExprs elts st) fun vs st => .ok (.tupleV vs) st
    | .listcompE _ elt gens =>
      -- on_listcomp
      match compPassOne gens st.symtable st.readonly [] [] with
      | .error (.badName tln tid) =>
        .ofRaise (raiseExc (.nodeK tln) (some .nameErr)
          ("invalid symbol name (reserved word?) " ++ tid) none 0 none st)
      | .error .copyErr =>
        -- the unimported `copy` module: a native NameError propagates
        .exn ⟨.nameErr, "name 'copy' is not defined"⟩ st
      | .ok (locals0, saved) =>
        ERes.bind (prev.compPass2 gens locals0 st) fun locals st =>
        ERes.bind (prev.compRec elt locals st) fun out st =>
        .ok (.listV out) { st with symtable := supdate st.symtable saved }

/-- The node-kind dispatch for statements. -/
def step_dispatchStmt (prev : Interp) : Stmt → IState → ERes Value
  | s, st =>
    match s with
    | .exprS _ e => prev.runExpr e st
    | .moduleS body => prev.runSeq body st
    | .passS _ => .ok .noneV st
    | .breakS _ => .ok (.interruptV true) { st with interrupt := .brkI }
    | .continueS _ => .ok (.interruptV false) { st with interrupt := .contI }
    | .assignS _ targets value =>
      ERes.bind (prev.runExpr value st) fun v st =>
      prev.assignTargets targets v st
    | .deleteS ln ids => prev.delLoop ln ids st
    | .ifS _ test body orelse =>
      ERes.bind (prev.runExpr test st) fun tv st =>
      ERes.bind (prev.runSeq (if truthy tv then body else orelse) st)
        fun _ st => .ok .noneV st
    | .whileS _ test body orelse =>
      ERes.bind (prev.whileLoop test body st) fun broke st =>
      ERes.bind
        (if broke then .ok Value.noneV st
         else ERes.bind (prev.runSeq orelse st) fun _ st => .ok .noneV st)
        fun _ st =>
      .ok .noneV { st with interrupt := .noneI }
    | .forS _ target iter body orelse =>
      ERes.bind (prev.runExpr iter st) fun itv st =>
      match iterElems itv with
      | none =>
        .exn ⟨.typeErr, "'" ++ pyStr itv ++ "' object is not iterable"⟩ st
      | some vals =>
        ERes.bind (prev.forIter target body vals st) fun broke st =>
        ERes.bind
          (if broke then .ok Value.noneV st
           else ERes.bind (prev.runSeq orelse st) fun _ st => .ok .noneV st)
          fun _ st =>
        .ok .noneV { st with interrupt := .noneI }
    | .returnS _ value =>
      -- on_return
      if st.calldepth = 0 then
        .exn ⟨.synErr, "cannot return at top level"⟩ st
      else
        ERes.bind
          (match value with
           | some e => prev.runExpr e st
           | none => .ok .noneV st)
          fun v st =>
        let rv := match v with
          | .noneV => Value.returnedNone
          | v => v
        .ok .noneV { st with retval := some rv }
    | .functiondefS ln fname args defaults vararg varkws body =>
      -- on_functiondef (an empty decorator list is implicit in the
      -- fragment)
      if !valid_symbol_name fname || st.readonly.contains fname then
        .ofRaise (raiseExc (.nodeK ln) (some .nameErr)
          ("invalid function name (reserved word?): '" ++ fname ++ "'")
          none 0 none st)
      else if strEndsWith fname "_" then
        .ofRaise (raiseExc (.nodeK ln) (some .nameErr)
          ("invalid function name ('_' ending is reserved): '" ++ fname ++ "'")
          none 0 none st)
      else
        let offset := args.length - defaults.length
        ERes.bind (prev.evalExprs defaults st) fun defvals st =>
        .ok .noneV
          { st with
              symtable := sset st.symtable fname
                (.procV fname (args.take offset)
                  ((args.drop offset).zip defvals) vararg varkws body
                  st.lineno),
              noDeepcopy := st.noDeepcopy.erase fname }
    | .raiseS ln excE cause =>
      -- on_raise
      ERes.bind (prev.runExpr excE st) fun out st =>
      match out with
      | .excInstV c eargs =>
        match joinStrs eargs with
        | .error ex => .exn ex st
        | .ok msg0 =>
          -- `if msgnode != 'None'` is always true (an AST node or `None`
          -- never equals the string `'None'`), so the cause is always
          -- evaluated; `run(None)` yields `None`
          ERes.bind
            (match cause with
             | some ce => prev.runExpr ce st
             | none => .ok Value.noneV st)
            fun m2 st =>
          let msg := match m2 with
            | .noneV => msg0
            | .strV "None" => msg0
            | m2 => msg0 ++ ": " ++ pyStr m2
          .ofRaise (raiseExc .noNode (some c) msg (some "") ln none st)
      | _ => .exn ⟨.attrErr, "object has no attribute 'args'"⟩ st
    | .tryS _ body handlers orelse finalbody =>
      -- on_try
      ERes.bind (prev.tryLoop body handlers true st) fun noErrors st =>
      ERes.bind
        (if noErrors then
          ERes.bind (prev.runSeq orelse st) fun _ st => .ok Value.noneV st
         else .ok Value.noneV st)
        fun _ st =>
      ERes.bind (prev.runSeq finalbody st) fun _ st =>
      .ok .noneV st

/-- `on_module`-style sequential execution, returning the last
statement's value. -/
def step_runSeq (prev : Interp) : List Stmt → IState → ERes Value
  | [], st => .ok .noneV st
  | s :: tl, st =>
    ERes.bind (prev.runStmt true none none s st) fun v st =>
    match tl with
    | [] => .ok v st
    | _ => prev.runSeq tl st

/-- Evaluate a list of argument expressions left to right. -/
def step_evalExprs (prev : Interp) : List Expr → IState → ERes (List Value)
  | [], st => .ok [] st
  | e :: tl, st =>
    ERes.bind (prev.runExpr e st) fun v st =>
    ERes.bind (prev.evalExprs tl st) fun vs st =>
    .ok (v :: vs) st

/-- Evaluate the keyword arguments of a call (`for key in
node.keywords`), rejecting repeats before evaluating the value. -/
def step_evalKwords (prev : Interp) : Nat → List (String × Expr) → Smap → IState → ERes Smap
  | _, [], acc, st => .ok acc st
  | ln, (k, ve) :: tl, acc, st =>
    if shas acc k then
      .ofRaise (raiseExc (.nodeK ln) (some .synErr)
        ("keyword argument repeated: " ++ k) none 0 none st)
    else
      ERes.bind (prev.runExpr ve st) fun v st =>
      prev.evalKwords ln tl (sset acc k v) st

/-- The comparison loop of `on_compare`: evaluate comparators left to
right, collecting results; with `use_numpy` set the break test touches
the unbound module-global `numpy` and raises a native `NameError`, so
early termination never actually occurs. -/
def step_compLoop (prev : Interp) : List (CmpOp × Expr) → Value → List Value → IState → ERes (List Value)
  | [], _, results, st => .ok results st
  | (op, rnode) :: tl, lval, results, st =>
    ERes.bind (prev.runExpr rnode st) fun rval st =>
    match cmpFunc op lval rval with
    | .error ex => .exn ex st
    | .ok ret =>
      if st.useNumpy then .exn ⟨.nameErr, "name 'numpy' is not defined"⟩ st
      else prev.compLoop tl rval (results ++ [ret]) st

/-- The tail loop of `on_boolop` (short-circuiting). -/
def step_boolLoop (prev : Interp) : Bool → List Expr → Value → IState → ERes Value
  | _, [], val, st => .ok val st
  | isAnd, n :: tl, val, st =>
    ERes.bind (prev.runExpr n st) fun w st =>
    let val := boolFunc isAnd val w
    if (isAnd && !truthy val) || (!isAnd && truthy val) then .ok val st
    else prev.boolLoop isAnd tl val st

/-- `node_assign` on a single target. -/
def step_nodeAssign (prev : Interp) : Target → Value → IState → ERes Value
  | t, v, st =>
    match t with
    | .nameT ln id =>
      if !valid_symbol_name id || st.readonly.contains id then
        .ofRaise (raiseExc (.nodeK ln) (some .nameErr)
          ("invalid symbol name (reserved word?) " ++ id) none 0 none st)
      else
        .ok .noneV
          { st with
              symtable := sset st.symtable id v,
              noDeepcopy := st.noDeepcopy.erase id }
    | .tupleT _ elts =>
      match iterElems v with
      | some xs =>
        if xs.length = elts.length then prev.assignZip elts xs st
        else
          .exn ⟨.valueErr,
            "too many values to unpack:" ++ toString xs.length⟩ st
      | none => .exn ⟨.typeErr, "object has no len()"⟩ st

/-- Elementwise tuple-target assignment. -/
def step_assignZip (prev : Interp) : List Target → List Value → IState → ERes Value
  | [], _, st => .ok .noneV st
  | _, [], st => .ok .noneV st
  | t :: ttl, v :: vtl, st =>
    ERes.bind (prev.nodeAssign t v st) fun _ st =>
    prev.assignZip ttl vtl st

/-- `on_assign`'s loop over the targets. -/
def step_assignTargets (prev : Interp) : List Target → Value → IState → ERes Value
  | [], _, st => .ok .noneV st
  | t :: tl, v, st =>
    ERes.bind (prev.nodeAssign t v st) fun _ st =>
    prev.assignTargets tl v st

/-- `on_delete`'s loop over the (name) targets. -/
def step_delLoop (prev : Interp) : Nat → List String → IState → ERes Value
  | _, [], st => .ok .noneV st
  | stmtLn, id :: tl, st =>
    -- make sure a script can't remove protected functions
    if strEndsWith id "_" then
      .ofRaise (raiseExc (.nodeK stmtLn) none
        ("could not delete embedded proc: " ++ id) none 0 none st)
    -- (the ctx of a delete target is always `ast.Del`, and a bare name
    -- has no attribute chain to walk)
    else if !(st.readonly.contains id) then
      if shas st.symtable id then
        prev.delLoop stmtLn tl { st with symtable := sdel st.symtable id }
      else .exn ⟨.keyErr, id⟩ st
    else
      .ofRaise (raiseExc (.nodeK stmtLn) none "could not delete symbol"
        none 0 none st)

/-- The inner body loop of `on_while`/`on_for` (`for tnode in node.body:
run; if self._interrupt is not None: break`). -/
def step_runBody (prev : Interp) : List Stmt → IState → ERes Value
  | [], st => .ok .noneV st
  | s :: tl, st =>
    ERes.bind (prev.runStmt true none none s st) fun _ st =>
    if st.interrupt ≠ .noneI then .ok .noneV st
    else prev.runBody tl st

/-- The iteration loop of `on_while`; returns whether the loop was left
through a `Break`. -/
def step_whileLoop (prev : Interp) : Expr → List Stmt → IState → ERes Bool
  | test, body, st =>
    ERes.bind (prev.runExpr test st) fun tv st =>
    if !truthy tv then .ok false st
    else
      let st := { st with interrupt := .noneI }
      ERes.bind (prev.runBody body st) fun _ st =>
      if st.interrupt = .brkI then .ok true st
      else prev.whileLoop test body st

/-- The iteration loop of `on_for`; returns whether the loop was left
through a `Break`. -/
def step_forIter (prev : Interp) : Target → List Stmt → List Value → IState → ERes Bool
  | _, _, [], st => .ok false st
  | target, body, v :: vs, st =>
    ERes.bind (prev.nodeAssign target v st) fun _ st =>
    let st := { st with interrupt := .noneI }
    ERes.bind (prev.runBody body st) fun _ st =>
    if st.interrupt = .brkI then .ok true st
    else prev.forIter target body vs st

/-- `func(*args, **keywords)`: invoke an embedded callable value. -/
def step_callValue (prev : Interp) : Nat → Value → List Value → Smap → IState → ERes Value
  | _, func, argv, kwv, st =>
    match func.asProc with
    | some pd => prev.procCall pd argv kwv st
    | none =>
      match func with
      | .excClassV c =>
        if kwv.isEmpty then .ok (.excInstV c argv) st
        else .exn ⟨.typeErr, "exceptions do not take keyword arguments"⟩ st
      | .builtinV .rangeFn =>
        match argv, kwv with
        | [v], [] =>
          match asNum v with
          | some n => .ok (.listV (rangeList n)) st
          | none => .exn ⟨.typeErr, "range() integer argument expected"⟩ st
        | _, _ => .exn ⟨.typeErr, "range() takes one argument here"⟩ st
      | .builtinV .printFn => .ok .noneV st
      | _ => .exn ⟨.typeErr, "object is not callable"⟩ st

/-- `Procedure.__call__`: bind arguments, shadow the clashing table
entries, execute the body, restore the table, return the captured
return value. -/
def step_procCall (prev : Interp) : ProcData → List Value → Smap → IState → ERes Value
  | pd, argv, kwv, st =>
    ERes.bind (procBindE pd argv kwv st) fun symlocals st =>
    -- save any parameters that are already in the global table
    let shadowpars := shadowOf symlocals st.symtable
    -- add the function arguments to the global table (the `except`
    -- around `symtable.update` is unreachable for a dict update)
    let st := { st with symtable := supdate st.symtable symlocals }
    let st := { st with retval := none, calldepth := st.calldepth + 1 }
    ERes.bind (prev.procBody pd pd.pbody st) fun retv st =>
    -- restore the global symbols
    match restoreGlobals symlocals shadowpars st.symtable with
    | .error ex => .exn ex st
    | .ok tbl =>
      .ok (retv.getD .noneV)
        { st with symtable := tbl, calldepth := st.calldepth - 1 }

/-- The body-execution loop of `Procedure.__call__`: preprocess each
statement for the `expr` tag, run it, surface pending faults through the
missing `no_print` attribute (a native `AttributeError`), capture the
return value. -/
def step_procBody (prev : Interp) : ProcData → List Stmt → IState → ERes (Option Value)
  | _, [], st => .ok none st
  | pd, s :: tl, st =>
    match bodyTag s with
    | .error ex => .exn ex st
    | .ok exp =>
      ERes.bind (prev.runStmt true (some exp) (some pd.plineno) s st) fun _ st =>
      if !st.errors.isEmpty then
        -- `if not self.no_print:` — `Procedure` has no such attribute
        .exn ⟨.attrErr, "'Procedure' object has no attribute 'no_print'"⟩ st
      else
        match st.retval with
        | some rv =>
          let st := { st with retval := none }
          (match rv with
           | .returnedNone => .ok none st
           | rv => .ok (some rv) st)
        | none => prev.procBody pd tl st

/-- The body loop of `on_try`: run each statement with
`with_raise=False`; on the first pending fault, match and run a handler,
then stop.  Returns the `no_errors` flag. -/
def step_tryLoop (prev : Interp) : List Stmt → List Handler → Bool → IState → ERes Bool
  | [], _, noErr, st => .ok noErr st
  | s :: tl, handlers, noErr, st =>
    ERes.bind (prev.runStmt false none none s st) fun _ st =>
    let noErr := noErr && st.errors.isEmpty
    if !st.errors.isEmpty then
      let eT := (st.errors.getLast?.map (·.infoCls)).getD none
      let eV : Value := match eT with
        | none =>
          match st.errorMsg with
          | some m => .strV m
          | none => .noneV
        | some _ => .strV ((st.errors.getLast?.map (·.infoMsg)).getD "")
      ERes.bind (prev.scanHandlers handlers eT eV st) fun _ st =>
      .ok noErr st
    else prev.tryLoop tl handlers noErr st

/-- The handler scan of `on_try`: resolve the declared class name
against the builtins, match (`htype is None or e_type is None or
isinstance(e_type(), htype)`), and on a match clear the fault channel,
bind the `as` name and run the handler body. -/
def step_scanHandlers (prev : Interp) : List Handler → Option ExcClass → Value → IState → ERes Value
  | [], _, _, st => .ok .noneV st
  | .mk tyName asName hbody :: tl, eT, eV, st =>
    let htype := match tyName with
      | none => none
      | some n => builtinClassLookup n
    let isMatch := htype.isNone || eT.isNone ||
      (match eT, htype with
       | some c, some h => excSubclass c h
       | _, _ => true)
    if isMatch then
      let st := { st with errors := [] }
      -- put the error string in the 'Exception as' variable
      -- (`node_assign` with a plain string: direct table write)
      let st := match asName with
        | some nm => { st with symtable := sset st.symtable nm eV }
        | none => st
      ERes.bind (prev.runSeq hbody st) fun _ st => .ok .noneV st
    else prev.scanHandlers tl eT eV st

/-- Second pass of `on_listcomp` over the generators: re-validate each
target, evaluate its iterable and accumulate the values that pass the
`if` guards. -/
def step_compPass2 (prev : Interp) : List CompGen → Smap → IState → ERes Smap
  | [], locals, st => .ok locals st
  | .mk tln tid iter ifs :: tl, locals, st =>
    if !valid_symbol_name tid || st.readonly.contains tid then
      .ofRaise (raiseExc (.nodeK tln) (some .nameErr)
        ("invalid symbol name (reserved word?) " ++ tid) none 0 none st)
    else
      ERes.bind (prev.runExpr iter st) fun itv st =>
      match iterElems itv with
      | none =>
        .exn ⟨.typeErr, "'" ++ pyStr itv ++ "' object is not iterable"⟩ st
      | some vals =>
        ERes.bind (prev.compIterLoop tid ifs vals locals st) fun locals st =>
        prev.compPass2 tl locals st

/-- One generator's iteration in `on_listcomp`'s second pass: bind the
target directly in the table, evaluate the guards, append passing
values to the target's accumulator. -/
def step_compIterLoop (prev : Interp) : String → List Expr → List Value → Smap → IState → ERes Smap
  | _, _, [], locals, st => .ok locals st
  | tid, ifs, v :: vs, locals, st =>
    let st := { st with symtable := sset st.symtable tid v }
    ERes.bind (prev.compIfs ifs true st) fun add st =>
    let locals :=
      if add then
        sset locals tid
          (match sget locals tid with
           | some (.listV xs) => .listV (xs ++ [v])
           | _ => .listV [v])
      else locals
    prev.compIterLoop tid ifs vs locals st

/-- `add = add and self.run(cond)` over the guards (Python `and`
short-circuits, so a false accumulator skips the remaining guards). -/
def step_compIfs (prev : Interp) : List Expr → Bool → IState → ERes Bool
  | [], add, st => .ok add st
  | c :: tl, add, st =>
    if !add then prev.compIfs tl add st
    else
      ERes.bind (prev.runExpr c st) fun cv st =>
      prev.compIfs tl (truthy cv) st

/-- `listcomp_recurse`: iterate the accumulated target values in
nested-loop order, evaluating the element expression at each leaf. -/
def step_compRec (prev : Interp) : Expr → Smap → IState → ERes (List Value)
  | elt, pairs, st =>
    match pairs with
    | [] =>
      ERes.bind (prev.runExpr elt st) fun v st => .ok [v] st
    | (n, vsV) :: tlPairs =>
      let vs := match vsV with
        | .listV xs => xs
        | _ => []
      prev.compRecLoop elt n vs tlPairs st

/-- The `for val in data[i]` loop inside `listcomp_recurse`. -/
def step_compRecLoop (prev : Interp) : Expr → String → List Value → Smap → IState → ERes (List Value)
  | _, _, [], _, st => .ok [] st
  | elt, n, v :: vs, tlPairs, st =>
    let st := { st with symtable := sset st.symtable n v }
    ERes.bind (prev.compRec elt tlPairs st) fun out1 st =>
    ERes.bind (prev.compRecLoop elt n vs tlPairs st) fun out2 st =>
    .ok (out1 ++ out2) st

/-- The zero-fuel interpreter: every evaluation times out. -/
def interp0 : Interp where
  runExpr := fun _ _ => .timeout
  runStmt := fun _ _ _ _ _ => .timeout
  dispatchExpr := fun _ _ => .timeout
  dispatchStmt := fun _ _ => .timeout
  runSeq := fun _ _ => .timeout
  evalExprs := fun _ _ => .timeout
  evalKwords := fun _ _ _ _ => .timeout
  compLoop := fun _ _ _ _ => .timeout
  boolLoop := fun _ _ _ _ => .timeout
  nodeAssign := fun _ _ _ => .timeout
  assignZip := fun _ _ _ => .timeout
  assignTargets := fun _ _ _ => .timeout
  delLoop := fun _ _ _ => .timeout
  runBody := fun _ _ => .timeout
  whileLoop := fun _ _ _ => .timeout
  forIter := fun _ _ _ _ => .timeout
  callValue := fun _ _ _ _ _ => .timeout
  procCall := fun _ _ _ _ => .timeout
  procBody := fun _ _ _ => .timeout
  tryLoop := fun _ _ _ _ => .timeout
  scanHandlers := fun _ _ _ _ => .timeout
  compPass2 := fun _ _ _ => .timeout
  compIterLoop := fun _ _ _ _ _ => .timeout
  compIfs := fun _ _ _ => .timeout
  compRec := fun _ _ _ => .timeout
  compRecLoop := fun _ _ _ _ _ => .timeout

/-- One fuel level of the interpreter: each evaluation function,
delegating every nested evaluation to the next-lower level. -/
def stepInterp (prev : Interp) : Interp where
  runExpr := step_runExpr prev
  runStmt := step_runStmt prev
  dispatchExpr := step_dispatchExpr prev
  dispatchStmt := step_dispatchStmt prev
  runSeq := step_runSeq prev
  evalExprs := step_evalExprs prev
  evalKwords := step_evalKwords prev
  compLoop := step_compLoop prev
  boolLoop := step_boolLoop prev
  nodeAssign := step_nodeAssign prev
  assignZip := step_assignZip prev
  assignTargets := step_assignTargets prev
  delLoop := step_delLoop prev
  runBody := step_runBody prev
  whileLoop := step_whileLoop prev
  forIter := step_forIter prev
  callValue := step_callValue prev
  procCall := step_procCall prev
  procBody := step_procBody prev
  tryLoop := step_tryLoop prev
  scanHandlers := step_scanHandlers prev
  compPass2 := step_compPass2 prev
  compIterLoop := step_compIterLoop prev
  compIfs := step_compIfs prev
  compRec := step_compRec prev
  compRecLoop := step_compRecLoop prev

/-- The interpreter with `n` units of fuel. -/
def interpAt (n : Nat) : Interp :=
  Nat.rec interp0 (fun _ prev => stepInterp prev) n

theorem interpAt_zero : interpAt 0 = interp0 := rfl

theorem interpAt_succ (n : Nat) : interpAt (n + 1) = stepInterp (interpAt n) := rfl

/-- Fuel-indexed entry point for `Interp.runExpr`. -/
def runExpr (fuel : Nat) : Expr → IState → ERes Value :=
  (interpAt fuel).runExpr

/-- Fuel-indexed entry point for `Interp.runStmt`. -/
def runStmt (fuel : Nat) : Bool → Option String → Option Nat → Stmt → IState → ERes Value :=
  (interpAt fuel).runStmt

/-- Fuel-indexed entry point for `Interp.dispatchExpr`. -/
def dispatchExpr (fuel : Nat) : Expr → IState → ERes Value :=
  (interpAt fuel).dispatchExpr

/-- Fuel-indexed entry point for `Interp.dispatchStmt`. -/
def dispatchStmt (fuel : Nat) : Stmt → IState → ERes Value :=
  (interpAt fuel).dispatchStmt

/-- Fuel-indexed entry point for `Interp.runSeq`. -/
def runSeq (fuel : Nat) : List Stmt → IState → ERes Value :=
  (interpAt fuel).runSeq

/-- Fuel-indexed entry point for `Interp.evalExprs`. -/
def evalExprs (fuel : Nat) : List Expr → IState → ERes (List Value) :=
  (interpAt fuel).evalExprs

/-- Fuel-indexed entry point for `Interp.evalKwords`. -/
def evalKwords (fuel : Nat) : Nat → List (String × Expr) → Smap → IState → ERes Smap :=
  (interpAt fuel).evalKwords

/-- Fuel-indexed entry point for `Interp.compLoop`. -/
def compLoop (fuel : Nat) : List (CmpOp × Expr) → Value → List Value → IState → ERes (List Value) :=
  (interpAt fuel).compLoop

/-- Fuel-indexed entry point for `Interp.boolLoop`. -/
def boolLoop (fuel : Nat) : Bool → List Expr → Value → IState → ERes Value :=
  (interpAt fuel).boolLoop

/-- Fuel-indexed entry point for `Interp.nodeAssign`. -/
def nodeAssign (fuel : Nat) : Target → Value → IState → ERes Value :=
  (interpAt fuel).nodeAssign

/-- Fuel-indexed entry point for `Interp.assignZip`. -/
def assignZip (fuel : Nat) : List Target → List Value → IState → ERes Value :=
  (interpAt fuel).assignZip

/-- Fuel-indexed entry point for `Interp.assignTargets`. -/
def assignTargets (fuel : Nat) : List Target → Value → IState → ERes Value :=
  (interpAt fuel).assignTargets

/-- Fuel-indexed entry point for `Interp.delLoop`. -/
def delLoop (fuel : Nat) : Nat → List String → IState → ERes Value :=
  (interpAt fuel).delLoop

/-- Fuel-indexed entry point for `Interp.runBody`. -/
def runBody (fuel : Nat) : List Stmt → IState → ERes Value :=
  (interpAt fuel).runBody

/-- Fuel-indexed entry point for `Interp.whileLoop`. -/
def whileLoop (fuel : Nat) : Expr → List Stmt → IState → ERes Bool :=
  (interpAt fuel).whileLoop

/-- Fuel-indexed entry point for `Interp.forIter`. -/
def forIter (fuel : Nat) : Target → List Stmt → List Value → IState → ERes Bool :=
  (interpAt fuel).forIter

/-- Fuel-indexed entry point for `Interp.callValue`. -/
def callValue (fuel : Nat) : Nat → Value → List Value → Smap → IState → ERes Value :=
  (interpAt fuel).callValue

/-- Fuel-indexed entry point for `Interp.procCall`. -/
def procCall (fuel : Nat) : ProcData → List Value → Smap → IState → ERes Value :=
  (interpAt fuel).procCall

/-- Fuel-indexed entry point for `Interp.procBody`. -/
def procBody (fuel : Nat) : ProcData → List Stmt → IState → ERes (Option Value) :=
  (interpAt fuel).procBody

/-- Fuel-indexed entry point for `Interp.tryLoop`. -/
def tryLoop (fuel : Nat) : List Stmt → List Handler → Bool → IState → ERes Bool :=
  (interpAt fuel).tryLoop

/-- Fuel-indexed entry point for `Interp.scanHandlers`. -/
def scanHandlers (fuel : Nat) : List Handler → Option ExcClass → Value → IState → ERes Value :=
  (interpAt fuel).scanHandlers

/-- Fuel-indexed entry point for `Interp.compPass2`. -/
def compPass2 (fuel : Nat) : List CompGen → Smap → IState → ERes Smap :=
  (interpAt fuel).compPass2

/-- Fuel-indexed entry point for `Interp.compIterLoop`. -/
def compIterLoop (fuel : Nat) : String → List Expr → List Value → Smap → IState → ERes Smap :=
  (interpAt fuel).compIterLoop

/-- Fuel-indexed entry point for `Interp.compIfs`. -/
def compIfs (fuel : Nat) : List Expr → Bool → IState → ERes Bool :=
  (interpAt fuel).compIfs

/-- Fuel-indexed entry point for `Interp.compRec`. -/
def compRec (fuel : Nat) : Expr → Smap → IState → ERes (List Value) :=
  (interpAt fuel).compRec

/-- Fuel-indexed entry point for `Interp.compRecLoop`. -/
def compRecLoop (fuel : Nat) : Expr → String → List Value → Smap → IState → ERes (List Value) :=
  (interpAt fuel).compRecLoop

theorem runExpr_succ (fuel : Nat) :
    runExpr (fuel + 1) = step_runExpr (interpAt fuel) := rfl

theorem runStmt_succ (fuel : Nat) :
    runStmt (fuel + 1) = step_runStmt (interpAt fuel) := rfl

theorem dispatchExpr_succ (fuel : Nat) :
    dispatchExpr (fuel + 1) = step_dispatchExpr (interpAt fuel) := rfl

theorem dispatchStmt_succ (fuel : Nat) :
    dispatchStmt (fuel + 1) = step_dispatchStmt (interpAt fuel) := rfl

theorem runSeq_succ (fuel : Nat) :
    runSeq (fuel + 1) = step_runSeq (interpAt fuel) := rfl

theorem evalExprs_succ (fuel : Nat) :
    evalExprs (fuel + 1) = step_evalExprs (interpAt fuel) := rfl

theorem evalKwords_succ (fuel : Nat) :
    evalKwords (fuel + 1) = step_evalKwords (interpAt fuel) := rfl

theorem compLoop_succ (fuel : Nat) :
    compLoop (fuel + 1) = step_compLoop (interpAt fuel) := rfl

theorem boolLoop_succ (fuel : Nat) :
    boolLoop (fuel + 1) = step_boolLoop (interpAt fuel) := rfl

theorem nodeAssign_succ (fuel : Nat) :
    nodeAssign (fuel + 1) = step_nodeAssign (interpAt fuel) := rfl

theorem assignZip_succ (fuel : Nat) :
    assignZip (fuel + 1) = step_assignZip (interpAt fuel) := rfl

theorem assignTargets_succ (fuel : Nat) :
    assignTargets (fuel + 1) = step_assignTargets (interpAt fuel) := rfl

theorem delLoop_succ (fuel : Nat) :
    delLoop (fuel + 1) = step_delLoop (interpAt fuel) := rfl

theorem runBody_succ (fuel : Nat) :
    runBody (fuel + 1) = step_runBody (interpAt fuel) := rfl

theorem whileLoop_succ (fuel : Nat) :
    whileLoop (fuel + 1) = step_whileLoop (interpAt fuel) := rfl

theorem forIter_succ (fuel : Nat) :
    forIter (fuel + 1) = step_forIter (interpAt fuel) := rfl

theorem callValue_succ (fuel : Nat) :
    callValue (fuel + 1) = step_callValue (interpAt fuel) := rfl

theorem procCall_succ (fuel : Nat) :
    procCall (fuel + 1) = step_procCall (interpAt fuel) := rfl

theorem procBody_succ (fuel : Nat) :
    procBody (fuel + 1) = step_procBody (interpAt fuel) := rfl

theorem tryLoop_succ (fuel : Nat) :
    tryLoop (fuel + 1) = step_tryLoop (interpAt fuel) := rfl

theorem scanHandlers_succ (fuel : Nat) :
    scanHandlers (fuel + 1) = step_scanHandlers (interpAt fuel) := rfl

theorem compPass2_succ (fuel : Nat) :
    compPass2 (fuel + 1) = step_compPass2 (interpAt fuel) := rfl

theorem compIterLoop_succ (fuel : Nat) :
    compIterLoop (fuel + 1) = step_compIterLoop (interpAt fuel) := rfl

theorem compIfs_succ (fuel : Nat) :
    compIfs (fuel + 1) = step_compIfs (interpAt fuel) := rfl

theorem compRec_succ (fuel : Nat) :
    compRec (fuel + 1) = step_compRec (interpAt fuel) := rfl

theorem compRecLoop_succ (fuel : Nat) :
    compRecLoop (fuel + 1) = step_compRecLoop (interpAt fuel) := rfl

theorem interp_runExpr (fuel : Nat) :
    (interpAt fuel).runExpr = runExpr fuel := rfl

theorem interp_runStmt (fuel : Nat) :
    (interpAt fuel).runStmt = runStmt fuel := rfl

theorem interp_dispatchExpr (fuel : Nat) :
    (interpAt fuel).dispatchExpr = dispatchExpr fuel := rfl

theorem interp_dispatchStmt (fuel : Nat) :
    (interpAt fuel).dispatchStmt = dispatchStmt fuel := rfl

theorem interp_runSeq (fuel : Nat) :
    (interpAt fuel).runSeq = runSeq fuel := rfl

theorem interp_evalExprs (fuel : Nat) :
    (interpAt fuel).evalExprs = evalExprs fuel := rfl

theorem interp_evalKwords (fuel : Nat) :
    (interpAt fuel).evalKwords = evalKwords fuel := rfl

theorem interp_compLoop (fuel : Nat) :
    (interpAt fuel).compLoop = compLoop fuel := rfl

theorem interp_boolLoop (fuel : Nat) :
    (interpAt fuel).boolLoop = boolLoop fuel := rfl

theorem interp_nodeAssign (fuel : Nat) :
    (interpAt fuel).nodeAssign = nodeAssign fuel := rfl

theorem interp_assignZip (fuel : Nat) :
    (interpAt fuel).assignZip = assignZip fuel := rfl

theorem interp_assignTargets (fuel : Nat) :
    (interpAt fuel).assignTargets = assignTargets fuel := rfl

theorem interp_delLoop (fuel : Nat) :
    (interpAt fuel).delLoop = delLoop fuel := rfl

theorem interp_runBody (fuel : Nat) :
    (interpAt fuel).runBody = runBody fuel := rfl

theorem interp_whileLoop (fuel : Nat) :
    (interpAt fuel).whileLoop = whileLoop fuel := rfl

theorem interp_forIter (fuel : Nat) :
    (interpAt fuel).forIter = forIter fuel := rfl

theorem interp_callValue (fuel : Nat) :
    (interpAt fuel).callValue = callValue fuel := rfl

theorem interp_procCall (fuel : Nat) :
    (interpAt fuel).procCall = procCall fuel := rfl

theorem interp_procBody (fuel : Nat) :
    (interpAt fuel).procBody = procBody fuel := rfl

theorem interp_tryLoop (fuel : Nat) :
    (interpAt fuel).tryLoop = tryLoop fuel := rfl

theorem interp_scanHandlers (fuel : Nat) :
    (interpAt fuel).scanHandlers = scanHandlers fuel := rfl

theorem interp_compPass2 (fuel : Nat) :
    (interpAt fuel).compPass2 = compPass2 fuel := rfl

theorem interp_compIterLoop (fuel : Nat) :
    (interpAt fuel).compIterLoop = compIterLoop fuel := rfl

theorem interp_compIfs (fuel : Nat) :
    (interpAt fuel).compIfs = compIfs fuel := rfl

theorem interp_compRec (fuel : Nat) :
    (interpAt fuel).compRec = compRec fuel := rfl

theorem interp_compRecLoop (fuel : Nat) :
    (interpAt fuel).compRecLoop = compRecLoop fuel := rfl


/-- `Interpreter.eval` on a parsed module: clear the fault channel,
reset the line number and run the module node (parse and host-side
error formatting live outside the evaluation core). -/
def runScript (fuel : Nat) (prog : List Stmt) (st : IState) : ERes Value :=
  let st := { st with lineno := 0, errors := [] }
  runStmt fuel true (some "<script>") (some 0) (.moduleS prog) st

/-- The final state of an evaluation result, when it did not time out. -/
def ERes.stateOf {α : Type} : ERes α → Option IState
  | .ok _ st => some st
  | .exn _ st => some st
  | .timeout => none

/-- The value of a normally completed evaluation. -/
def ERes.okV {α : Type} : ERes α → Option α
  | .ok v _ => some v
  | _ => none

/-- Did the evaluation end in a native exception? -/
def ERes.isExn {α : Type} : ERes α → Bool
  | .exn _ _ => true
  | _ => false

/-- The class of the native exception an evaluation ended with. -/
def ERes.exnCls {α : Type} : ERes α → Option ExcClass
  | .exn e _ => some e.cls
  | _ => none

/-- Look a name up in the final symbol table (`none` when the run timed
out, `some none` when the name is unbound). -/
def ERes.tabGet {α : Type} (r : ERes α) (k : String) :
    Option (Option Value) :=
  r.stateOf.map (fun st => sget st.symtable k)

/-- The number of fault records in the final state. -/
def ERes.errCount {α : Type} (r : ERes α) : Option Nat :=
  r.stateOf.map (fun st => st.errors.length)

/-- Reported class and creation-time message of the authoritative first
fault record. -/
def ERes.headInfo {α : Type} (r : ERes α) :
    Option (Option ExcClass × String) :=
  r.stateOf.bind (fun st => st.errors.head?.map
    (fun h => (h.infoCls, h.infoMsg)))

/-- The final return-value slot. -/
def ERes.retvalOf {α : Type} (r : ERes α) : Option (Option Value) :=
  r.stateOf.map (fun st => st.retval)

/-! ## Lemmas about the symbol-table operations -/

theorem sget_sset (t : Smap) (k : String) (v : Value) (k' : String) :
    sget (sset t k v) k' = if k' = k then some v else sget t k' := by
  induction t with
  | nil => simp [sset, sget]
  | cons hd tl ih =>
    obtain ⟨k0, v0⟩ := hd
    by_cases h : k = k0
    · subst h
      by_cases h' : k' = k <;> simp [sset, sget, h']
    · by_cases h' : k' = k0
      · subst h'
        simp [sset, sget, h, Ne.symm h]
      · simp [sset, sget, h, h', ih]

theorem sget_sdel (t : Smap) (k : String) (k' : String) :
    sget (sdel t k) k' = if k' = k then none else sget t k' := by
  induction t with
  | nil => simp [sdel, sget]
  | cons hd tl ih =>
    obtain ⟨k0, v0⟩ := hd
    by_cases h : k = k0
    · subst h
      by_cases h' : k' = k
      · subst h'
        simp [sdel, sget, ih]
      · simp [sdel, sget, h', ih]
    · by_cases h' : k' = k0
      · subst h'
        simp [sdel, sget, h, Ne.symm h]
      · simp [sdel, sget, h, h', ih]

theorem shas_iff (t : Smap) (k : String) :
    shas t k = (sget t k).isSome := rfl

theorem shadowOf_keys (sl tbl : Smap) (k : String) :
    strMem ((shadowOf sl tbl).map Prod.fst) k =
      (strMem (sl.map Prod.fst) k && (sget tbl k).isSome) := by
  induction sl with
  | nil => simp [shadowOf, strMem]
  | cons hd tl ih =>
    obtain ⟨k0, v0⟩ := hd
    cases hg : sget tbl k0 with
    | none =>
      by_cases hk : k = k0
      · subst hk
        simp [shadowOf, hg, strMem, ih]
      · simp [shadowOf, hg, strMem, hk, ih]
    | some v =>
      by_cases hk : k = k0
      · subst hk
        simp [shadowOf, hg, strMem, ih]
      · simp [shadowOf, hg, strMem, hk, ih]

theorem sget_supdate_shadowOf (sl tbl : Smap) (t : Smap) (k : String) :
    sget (supdate t (shadowOf sl tbl)) k =
      if strMem ((shadowOf sl tbl).map Prod.fst) k then sget tbl k
      else sget t k := by
  induction sl generalizing t with
  | nil => simp [shadowOf, supdate, strMem]
  | cons hd tl ih =>
    obtain ⟨k0, v0⟩ := hd
    cases hg : sget tbl k0 with
    | none => simp only [shadowOf, hg]; exact ih t
    | some v =>
      simp only [shadowOf, hg, supdate]
      rw [ih (sset t k0 v)]
      by_cases hk : strMem ((shadowOf tl tbl).map Prod.fst) k = true
      · simp [hk, strMem]
      · by_cases hkk : k = k0
        · subst hkk
          simp [hk, strMem, sget_sset, hg]
        · simp [hk, strMem, hkk, sget_sset]

theorem delNonShadowed_sget (ks spKeys : List String) (t t' : Smap)
    (h : delNonShadowed ks spKeys t = .ok t') (k : String) :
    sget t' k =
      if strMem ks k && !strMem spKeys k then none else sget t k := by
  induction ks generalizing t with
  | nil =>
    simp only [delNonShadowed] at h
    cases h
    simp [strMem]
  | cons k0 tl ih =>
    simp only [delNonShadowed] at h
    by_cases h0 : strMem spKeys k0 = true
    · rw [if_pos h0] at h
      rw [ih t h]
      by_cases hk : k = k0
      · subst hk
        simp [strMem, h0]
      · simp [strMem, hk]
    · rw [if_neg h0] at h
      by_cases hh : shas t k0 = true
      · rw [if_pos hh] at h
        rw [ih (sdel t k0) h]
        by_cases hk : k = k0
        · subst hk
          simp [strMem, h0, sget_sdel]
        · simp [strMem, hk, sget_sdel]
      · rw [if_neg hh] at h
        cases h

theorem restoreGlobals_shadow_sget (sl tbl t t' : Smap)
    (h : restoreGlobals sl (shadowOf sl tbl) t = .ok t') (k : String)
    (hk : strMem (sl.map Prod.fst) k = true) :
    sget t' k = sget tbl k := by
  unfold restoreGlobals at h
  cases hdel : delNonShadowed (sl.map Prod.fst)
      ((shadowOf sl tbl).map Prod.fst) t with
  | error e =>
    rw [hdel] at h
    simp [Except.map] at h
  | ok tmid =>
    rw [hdel] at h
    simp only [Except.map] at h
    cases h
    rw [sget_supdate_shadowOf, shadowOf_keys]
    have hd := delNonShadowed_sget _ _ _ _ hdel k
    rw [shadowOf_keys] at hd
    cases hs : (sget tbl k).isSome with
    | true =>
      simp [hk, hs]
    | false =>
      simp only [hk, hs, Bool.and_false, Bool.and_true, Bool.not_false,
        if_false, Bool.true_and, Bool.not_eq_true] at hd ⊢
      rw [if_pos] at hd
      · rw [hd]
        cases hsg : sget tbl k with
        | none => rfl
        | some v => rw [hsg] at hs; simp at hs
      · simp [hk, hs]


theorem ERes.bind_ok {α β : Type} {x : ERes α} {f : α → IState → ERes β}
    {v : β} {st' : IState} (h : ERes.bind x f = .ok v st') :
    ∃ w stm, x = .ok w stm ∧ f w stm = .ok v st' := by
  cases x with
  | ok w stm => exact ⟨w, stm, rfl, h⟩
  | exn e stm => simp [ERes.bind] at h
  | timeout => simp [ERes.bind] at h

/-- C2: For every `Procedure` call that returns normally, every bound
parameter name is mapped afterwards exactly as before the call: a
shadowed name is restored to its pre-call snapshot, and a bound name
that was not previously in the table is deleted (so a prior binding
`x = 5` survives a call to a procedure whose parameter `x` is reassigned
in its body).  `symlocals` is the binding map produced by the
argument-binding phase, which leaves the state untouched on success. -/
theorem c2_shadow_restore
    (fuel : Nat) (pd : ProcData) (argv : List Value) (kwv : Smap)
    (st : IState) (symlocals : Smap) (v : Value) (stf : IState)
    (hbind : procBindE pd argv kwv st = .ok symlocals st)
    (hcall : procCall (fuel + 1) pd argv kwv st = .ok v stf)
    (k : String) (hk : strMem (symlocals.map Prod.fst) k = true) :
    sget stf.symtable k = sget st.symtable k := by
  rw [procCall_succ] at hcall
  simp only [step_procCall] at hcall
  rw [hbind] at hcall
  simp only [ERes.bind] at hcall
  obtain ⟨retv, st2, hbody, hcont⟩ := ERes.bind_ok hcall
  cases hres : restoreGlobals symlocals (shadowOf symlocals st.symtable)
      st2.symtable with
  | error ex =>
    rw [hres] at hcont
    cases hcont
  | ok tbl =>
    rw [hres] at hcont
    cases hcont
    exact restoreGlobals_shadow_sget _ _ _ _ hres k hk

/-- The spec's shadow/restore round-trip scenario: `f`'s parameter is
named `x` and its body reassigns `x`. -/
def c2_pd : ProcData :=
  ⟨"f", ["x"], [], none, none,
    [.assignS 2 [.nameT 2 "x"] (.constE 2 (.intC 3))], 0⟩

/-- A state with the global binding `x = 5`. -/
def c2_st : IState := addSymbol initState "x" (.intV 5)

/-- The call `f(99)`. -/
def c2_res : ERes Value := procCall 50 c2_pd [.intV 99] [] c2_st

theorem c2_witness :
    sget ((c2_res.stateOf).getD initState).symtable "x" =
      some (Value.intV 5) := by
  have h := c2_shadow_restore 49 c2_pd [Value.intV 99] [] c2_st
    [("x", Value.intV 99)] Value.noneV ((c2_res.stateOf).getD initState)
    rfl rfl "x" rfl
  rw [h]
  rfl

theorem abortRaise_spec (nk : NodeK) (st : IState) (herr : st.errors = []) :
    ((ERes.ofRaise (raiseExc nk none "execution aborted" none 0 none st) :
        ERes Value).isExn = true) ∧
    ((ERes.ofRaise (raiseExc nk none "execution aborted" none 0 none st) :
        ERes Value).headInfo = some (none, "execution aborted")) ∧
    (∀ k, k ≠ "errline_" →
      (ERes.ofRaise (raiseExc nk none "execution aborted" none 0 none st) :
        ERes Value).tabGet k = some (sget st.symtable k)) ∧
    ((ERes.ofRaise (raiseExc nk none "execution aborted" none 0 none st) :
        ERes Value).retvalOf = some st.retval) := by
  have h1 : ¬("execution aborted" = "") := by decide
  have h2 : 0 < "execution aborted".length := by decide
  cases nk with
  | noNode =>
    simp [raiseExc, mkHolder, setHeadMsg, herr, h1, h2, ERes.ofRaise,
      ERes.isExn, ERes.headInfo, ERes.stateOf, ERes.tabGet, ERes.retvalOf]
  | moduleK =>
    simp [raiseExc, mkHolder, setHeadMsg, herr, h1, h2, ERes.ofRaise,
      ERes.isExn, ERes.headInfo, ERes.stateOf, ERes.tabGet, ERes.retvalOf]
  | nodeK ln =>
    by_cases hln : ln = 0
    · subst hln
      simp [raiseExc, mkHolder, setHeadMsg, herr, h1, h2, ERes.ofRaise,
        ERes.isExn, ERes.headInfo, ERes.stateOf, ERes.tabGet, ERes.retvalOf]
    · simp [raiseExc, mkHolder, setHeadMsg, herr, h1, h2, hln, ERes.ofRaise,
        ERes.isExn, ERes.headInfo, ERes.stateOf, ERes.tabGet, ERes.retvalOf,
        sget_sset]
      intro k hk
      simp [hk]

/-- C8: Once the abort flag is set by `abortrun()`, every subsequent
`run(node)` call raises before evaluating the node: the result is a
native exception, a fault record reading "execution aborted" is
appended, and — apart from the `errline_` error-line register — the
symbol table and the return-value slot are untouched (no statement
effect occurred).  Once the stop flag is set by `stoprun()`, every
subsequent `run(node)` call returns `None` immediately with the state
completely unchanged and no fault raised.  (The stop flag is checked
first, so these describe each flag with the other clear.) -/
theorem c8_abort_stop :
    (∀ (fuel : Nat) (wr : Bool) (ex : Option String) (lnA : Option Nat)
       (s : Stmt) (st : IState), st.stopF = false → st.errors = [] →
      (runStmt (fuel + 1) wr ex lnA s (abortrun st)).isExn = true ∧
      (runStmt (fuel + 1) wr ex lnA s (abortrun st)).headInfo =
        some (none, "execution aborted") ∧
      (∀ k, k ≠ "errline_" →
        (runStmt (fuel + 1) wr ex lnA s (abortrun st)).tabGet k =
          some (sget st.symtable k)) ∧
      (runStmt (fuel + 1) wr ex lnA s (abortrun st)).retvalOf =
        some st.retval) ∧
    (∀ (fuel : Nat) (e : Expr) (st : IState),
      st.stopF = false → st.errors = [] →
      (runExpr (fuel + 1) e (abortrun st)).isExn = true ∧
      (runExpr (fuel + 1) e (abortrun st)).headInfo =
        some (none, "execution aborted")) ∧
    (∀ (fuel : Nat) (wr : Bool) (ex : Option String) (lnA : Option Nat)
       (s : Stmt) (st : IState),
      runStmt (fuel + 1) wr ex lnA s (stoprun st) =
        .ok .noneV (stoprun st)) ∧
    (∀ (fuel : Nat) (e : Expr) (st : IState),
      runExpr (fuel + 1) e (stoprun st) = .ok .noneV (stoprun st)) := by
  refine ⟨?_, ?_, ?_, ?_⟩
  · intro fuel wr ex lnA s st hstop herr
    have hra : runStmt (fuel + 1) wr ex lnA s (abortrun st) =
        ERes.ofRaise (raiseExc (stmtNodeK s) none "execution aborted"
          none 0 none (abortrun st)) := by
      rw [runStmt_succ]
      simp [step_runStmt, abortrun, hstop]
    rw [hra]
    have hsp := abortRaise_spec (stmtNodeK s) (abortrun st)
      (by simp [abortrun, herr])
    simpa [abortrun] using hsp
  · intro fuel e st hstop herr
    have hra : runExpr (fuel + 1) e (abortrun st) =
        ERes.ofRaise (raiseExc (nkOfExpr e) none "execution aborted"
          none 0 none (abortrun st)) := by
      rw [runExpr_succ]
      simp [step_runExpr, abortrun, hstop]
    rw [hra]
    have hsp := abortRaise_spec (nkOfExpr e) (abortrun st)
      (by simp [abortrun, herr])
    exact ⟨hsp.1, hsp.2.1⟩
  · intro fuel wr ex lnA s st
    rw [runStmt_succ]
    simp [step_runStmt, stoprun]
  · intro fuel e st
    rw [runExpr_succ]
    simp [step_runExpr, stoprun]

theorem c8_witness :
    (runStmt 10 true none none (.passS 1) (abortrun initState)).isExn = true ∧
    (runStmt 10 true none none (.passS 1) (abortrun initState)).headInfo =
      some (none, "execution aborted") ∧
    (runStmt 10 true none none (.passS 1) (abortrun initState)).tabGet "x" =
      some (sget initState.symtable "x") ∧
    runStmt 10 true none none (.passS 1) (stoprun initState) =
      .ok .noneV (stoprun initState) := by
  obtain ⟨h1, h2, h3, _⟩ :=
    c8_abort_stop.1 9 true none none (.passS 1) initState rfl rfl
  exact ⟨h1, h2, h3 "x" (by decide),
    c8_abort_stop.2.2.1 9 true none none (.passS 1) initState⟩

theorem raiseExc_retval (nk : NodeK) (exc : Option ExcClass) (msg : String)
    (exprArg : Option String) (lineno : Nat) (ambient : Option NativeExc)
    (st : IState) :
    (raiseExc nk exc msg exprArg lineno ambient st).2.retval = st.retval := by
  simp only [raiseExc]
  repeat' split
  all_goals rfl

/-- C10: A `return` statement evaluated at call depth zero (top level,
outside any `Procedure` call) raises a "cannot return at top level"
fault — surfacing as a `SyntaxError`-class exception with that message
in the authoritative fault record — and the return-value slot stays
unset; and whenever evaluating a `return` statement turns an unset
return-value slot into a set one, the call depth was positive. -/
theorem c10_return_toplevel :
    (∀ (fuel : Nat) (ex : Option String) (lnA : Option Nat) (ln : Nat)
       (val : Option Expr) (st : IState),
      st.stopF = false → st.abortF = false → st.errors = [] →
      st.retval = none → st.interrupt = .noneI → st.calldepth = 0 →
      (runStmt (fuel + 2) true ex lnA (.returnS ln val) st).exnCls =
        some .synErr ∧
      (runStmt (fuel + 2) true ex lnA (.returnS ln val) st).headInfo =
        some (some .synErr, "cannot return at top level") ∧
      (runStmt (fuel + 2) true ex lnA (.returnS ln val) st).retvalOf =
        some none) ∧
    (∀ (fuel : Nat) (wr : Bool) (ex : Option String) (lnA : Option Nat)
       (ln : Nat) (val : Option Expr) (st : IState) (st' : IState),
      st.stopF = false → st.abortF = false → st.errors = [] →
      st.interrupt = .noneI → st.retval = none →
      (runStmt fuel wr ex lnA (.returnS ln val) st).stateOf = some st' →
      st'.retval ≠ none → 0 < st.calldepth) := by
  constructor
  · intro fuel ex lnA ln val st hstop habort herr hr0 hint hd
    rw [runStmt_succ]
    simp only [step_runStmt, hstop, habort, herr, hr0, hint]
    cases lnA <;> cases ex <;>
      simp only [List.isEmpty_nil, Bool.not_true, Bool.false_eq_true,
        if_false, if_true, Bool.not_false, Bool.true_eq_false] <;>
    · rw [interp_dispatchStmt, dispatchStmt_succ]
      simp only [step_dispatchStmt, hd]
      simp [wrapRaise, ERes.ofRaise, raiseExc, mkHolder, setHeadMsg,
        ERes.exnCls, ERes.headInfo, ERes.stateOf, ERes.retvalOf, hr0, herr]
  · intro fuel wr ex lnA ln val st st' hstop habort herr hint hr0 hst hrne
    by_cases hd : st.calldepth = 0
    · exfalso
      apply hrne
      cases fuel with
      | zero =>
        simp [runStmt, interpAt, interp0, ERes.stateOf] at hst
      | succ g =>
        rw [runStmt_succ] at hst
        simp only [step_runStmt, hstop, habort, herr, hr0, hint] at hst
        cases g with
        | zero =>
          cases lnA <;> cases ex <;>
            simp [interpAt, interp0, wrapRaise, ERes.stateOf] at hst
        | succ g2 =>
          rw [interp_dispatchStmt, dispatchStmt_succ] at hst
          cases lnA <;> cases ex <;>
          · simp only [step_dispatchStmt, hd, List.isEmpty_nil,
              Bool.not_true, Bool.false_eq_true, if_false, if_true,
              Bool.not_false, Bool.true_eq_false] at hst
            cases wr <;>
              simp_all [wrapRaise, ERes.ofRaise, ERes.stateOf,
                raiseExc_retval] <;>
              exact hrne (by
                rw [← hst]
                try exact hr0
                try rw [raiseExc_retval]
                try exact hr0
                try rfl
                try simp_all)
    · omega

/-- A top-level `return 5` statement. -/
def c10_ret : Stmt := .returnS 1 (some (.constE 1 (.intC 5)))

/-- A state already inside a procedure call (positive call depth). -/
def c10_st : IState := { initState with calldepth := 1 }

/-- Evaluating `return 5` at call depth 1. -/
def c10_r : ERes Value := runStmt 10 true none none c10_ret c10_st

theorem c10_witness :
    ((runStmt 10 true none none c10_ret initState).exnCls =
        some .synErr ∧
      (runStmt 10 true none none c10_ret initState).headInfo =
        some (some .synErr, "cannot return at top level") ∧
      (runStmt 10 true none none c10_ret initState).retvalOf =
        some none) ∧
    0 < c10_st.calldepth := by
  constructor
  · exact c10_return_toplevel.1 8 none none 1
      (some (.constE 1 (.intC 5))) initState rfl rfl rfl rfl rfl rfl
  · exact c10_return_toplevel.2 10 true none none 1
      (some (.constE 1 (.intC 5))) c10_st (c10_r.stateOf.getD initState)
      rfl rfl rfl rfl rfl rfl
      (by
        rw [show (c10_r.stateOf.getD initState).retval =
          some (.intV 5) from rfl]
        simp)

/-- The chained comparison `1 > 2 > undefined` as a script. -/
def c4_prog : List Stmt :=
  [.exprS 1 (.compareE 1 (.constE 1 (.intC 1))
    [(.gt, .constE 1 (.intC 2)), (.gt, .nameE 1 "undefined")])]

/-- C4 counterexample: in `1 > 2 > undefined` the first comparison is
false, yet evaluation does not stop there — the third comparator is
still evaluated (the `use_numpy` flag is clear, so the loop never
breaks) and its `NameError` surfaces, where the claim's semantics would
have produced `False` without touching `undefined`. -/
theorem c4_counterexample :
    (runScript 50 c4_prog initState).exnCls = some .nameErr ∧
    (runScript 50 c4_prog initState).headInfo =
      some (some .nameErr, "name 'undefined' is not defined") ∧
    (runScript 50 c4_prog initState).okV = none := ⟨rfl, rfl, rfl⟩

/-- C4 amended: chained comparisons evaluate every comparison left to
right — with the numpy flag clear there is no early exit at a false
result, so the remaining comparators are still evaluated (the final
state is the one left by the last comparator) — and the overall result
is the conjunction of the individual comparison results. -/
theorem c4_compare_amended
    (m : Nat) (ln : Nat) (a b c : Expr) (op1 op2 : CmpOp) (st : IState)
    (va : Value) (st1 : IState) (vb : Value) (st2 : IState)
    (vc : Value) (st3 : IState) (b1 b2 : Bool)
    (hstop : st.stopF = false) (habort : st.abortF = false)
    (herr : st.errors = []) (hr0 : st.retval = none)
    (hint : st.interrupt = .noneI)
    (h1 : runExpr (m + 3) a st = .ok va st1)
    (h2 : runExpr (m + 2) b st1 = .ok vb st2)
    (h3 : cmpFunc op1 va vb = .ok (.boolV b1))
    (hn2 : st2.useNumpy = false)
    (h4 : runExpr (m + 1) c st2 = .ok vc st3)
    (h5 : cmpFunc op2 vb vc = .ok (.boolV b2))
    (hn3 : st3.useNumpy = false) :
    runExpr (m + 5) (.compareE ln a [(op1, b), (op2, c)]) st =
      .ok (.boolV (b1 && b2)) st3 := by
  have e0 : runExpr (m + 5) (.compareE ln a [(op1, b), (op2, c)]) st =
      step_runExpr (interpAt (m + 4))
        (.compareE ln a [(op1, b), (op2, c)]) st := rfl
  rw [e0]
  simp only [step_runExpr, hstop, habort, herr, hr0, hint,
    List.isEmpty_nil, Bool.not_true, Bool.false_eq_true, if_false]
  have e1 : (interpAt (m + 4)).dispatchExpr
      (.compareE ln a [(op1, b), (op2, c)]) st =
      step_dispatchExpr (interpAt (m + 3))
        (.compareE ln a [(op1, b), (op2, c)]) st := rfl
  rw [e1]
  simp only [step_dispatchExpr, interp_runExpr, interp_compLoop]
  rw [h1]
  simp only [ERes.bind]
  have e2 : compLoop (m + 3) [(op1, b), (op2, c)] va [] st1 =
      step_compLoop (interpAt (m + 2)) [(op1, b), (op2, c)] va [] st1 := rfl
  rw [e2]
  simp only [step_compLoop, interp_runExpr, interp_compLoop]
  rw [h2]
  simp only [ERes.bind]
  rw [h3]
  simp only [hn2, Bool.false_eq_true, if_false, List.nil_append,
    List.cons_append]
  have e3 : compLoop (m + 2) [(op2, c)] vb [Value.boolV b1] st2 =
      step_compLoop (interpAt (m + 1)) [(op2, c)] vb [Value.boolV b1] st2 := rfl
  rw [e3]
  simp only [step_compLoop, interp_runExpr, interp_compLoop]
  rw [h4]
  simp only [ERes.bind]
  rw [h5]
  simp only [hn3, Bool.false_eq_true, if_false, List.nil_append,
    List.cons_append]
  have e4 : compLoop (m + 1) [] vc [Value.boolV b1, Value.boolV b2] st3 =
      step_compLoop (interpAt m) [] vc [Value.boolV b1, Value.boolV b2] st3
      := rfl
  rw [e4]
  simp only [step_compLoop, ERes.bind]
  simp only [List.foldl, truthy, wrapRaise]
  cases b1 <;> cases b2 <;> simp [truthy]

theorem c4_witness :
    runExpr 10 (.compareE 1 (.constE 1 (.intC 1))
      [(.lt, .constE 1 (.intC 2)), (.lt, .constE 1 (.intC 3))]) initState =
      .ok (.boolV true) initState := by
  have h := c4_compare_amended 5 1 (.constE 1 (.intC 1))
    (.constE 1 (.intC 2)) (.constE 1 (.intC 3)) .lt .lt initState
    (.intV 1) initState (.intV 2) initState (.intV 3) initState true true
    rfl rfl rfl rfl rfl rfl rfl rfl rfl rfl rfl rfl
  simpa using h

/-- The final symbol table of an evaluation result. -/
def ERes.symtabOf {α : Type} (r : ERes α) : Option Smap :=
  r.stateOf.map (fun st => st.symtable)

theorem raisedWrapped_spec (nk nk2 : NodeK) (c : ExcClass) (msg : String)
    (exa exa2 : Option String) (lnn : Nat) (st : IState)
    (herr : st.errors = []) (hm : msg ≠ "") :
    ((wrapRaise true nk2 exa2
        (ERes.ofRaise (raiseExc nk (some c) msg exa lnn none st))).exnCls =
      some c) ∧
    ((wrapRaise true nk2 exa2
        (ERes.ofRaise (raiseExc nk (some c) msg exa lnn none st))).headInfo =
      some (some c, msg)) := by
  have hml : 0 < msg.length := by
    cases hmsg : msg.data with
    | nil =>
      exact absurd (by cases msg; cases hmsg; rfl) hm
    | cons a tl =>
      show 0 < msg.data.length
      rw [hmsg]
      simp
  have hwl : ¬(0 < ("" : String).length) := by decide
  cases nk with
  | noNode =>
    by_cases h0 : lnn = 0 <;>
      cases nk2 <;>
      simp [raiseExc, mkHolder, setHeadMsg, wrapRaise, ERes.ofRaise,
        ERes.exnCls, ERes.headInfo, ERes.stateOf, herr, hm, hml, h0, hwl]
  | moduleK =>
    by_cases h0 : lnn = 0 <;>
      cases nk2 <;>
      simp [raiseExc, mkHolder, setHeadMsg, wrapRaise, ERes.ofRaise,
        ERes.exnCls, ERes.headInfo, ERes.stateOf, herr, hm, hml, h0, hwl]
  | nodeK ln =>
    by_cases h0 : ln = 0 <;>
      cases nk2 <;>
      simp [raiseExc, mkHolder, setHeadMsg, wrapRaise, ERes.ofRaise,
        ERes.exnCls, ERes.headInfo, ERes.stateOf, herr, hm, hml, h0, hwl]

theorem raisedWrappedNode_spec (nk2 : NodeK) (c : ExcClass) (msg : String)
    (exa exa2 : Option String) (lnn : Nat) (tln : Nat) (st : IState)
    (herr : st.errors = []) (hm : msg ≠ "") (htln : tln ≠ 0) :
    ((wrapRaise true nk2 exa2
        (ERes.ofRaise (raiseExc (.nodeK tln) (some c) msg exa lnn none
          st))).exnCls = some c) ∧
    ((wrapRaise true nk2 exa2
        (ERes.ofRaise (raiseExc (.nodeK tln) (some c) msg exa lnn none
          st))).headInfo = some (some c, msg)) ∧
    ((wrapRaise true nk2 exa2
        (ERes.ofRaise (raiseExc (.nodeK tln) (some c) msg exa lnn none
          st))).symtabOf =
      some (sset st.symtable "errline_" (.intV tln))) ∧
    ((wrapRaise true nk2 exa2
        (ERes.ofRaise (raiseExc (.nodeK tln) (some c) msg exa lnn none
          st))).retvalOf = some st.retval) := by
  have hml : 0 < msg.length := by
    cases hmsg : msg.data with
    | nil =>
      exact absurd (by cases msg; cases hmsg; rfl) hm
    | cons a tl =>
      show 0 < msg.data.length
      rw [hmsg]
      simp
  have hwl : ¬(0 < ("" : String).length) := by decide
  cases nk2 <;>
    simp [raiseExc, mkHolder, setHeadMsg, wrapRaise, ERes.ofRaise,
      ERes.exnCls, ERes.headInfo, ERes.stateOf, ERes.symtabOf,
      ERes.retvalOf, herr, hm, hml, htln, hwl]

theorem strAppend_ne_empty (s t : String) (h : s ≠ "") : s ++ t ≠ "" := by
  intro hc
  apply h
  have hd : (s ++ t).data = [] := by rw [hc]
  rw [String.data_append] at hd
  rcases List.append_eq_nil.mp hd with ⟨h1, _⟩
  cases s with
  | mk d =>
    have h1' : d = [] := by simpa using h1
    rw [h1']

/-- C7: For every attribute-load whose attribute name matches the dunder
pattern `__x__` or is in the unsafe-attribute blocklist, evaluation
raises an `AttributeError`-kind fault regardless of the target object's
type, and the underlying attribute read is never attempted: the handler
core reduces to the deny path for every possible host attribute-read
function `ga`, so its outcome cannot depend on `ga`. -/
theorem c7_attr_blocklist :
    (∀ (ga : Value → String → Option Value) (nk : NodeK) (a : String)
       (sym : Value) (reEval : IState → ERes Value) (st : IState),
      (UNSAFE_ATTRS.contains a ||
        (strStartsWith a "__" && strEndsWith a "__")) = true →
      attrCore ga nk a sym reEval st =
        ERes.bind (reEval st) (fun obj st1 =>
          ERes.ofRaise (raiseExc nk (some .attrErr)
            ("cannnot access attribute '" ++ a ++ "' for " ++ pyStr obj)
            none 0 none st1))) ∧
    (∀ (m ln : Nat) (ve : Expr) (a : String) (st : IState) (v : Value)
       (st1 : IState) (v2 : Value) (st2 : IState),
      st.stopF = false → st.abortF = false → st.errors = [] →
      st.retval = none → st.interrupt = .noneI →
      (UNSAFE_ATTRS.contains a ||
        (strStartsWith a "__" && strEndsWith a "__")) = true →
      runExpr m ve st = .ok v st1 →
      runExpr m ve st1 = .ok v2 st2 →
      st2.errors = [] →
      (runExpr (m + 2) (.attrE ln ve a true) st).exnCls =
        some .attrErr ∧
      (runExpr (m + 2) (.attrE ln ve a true) st).headInfo =
        some (some .attrErr,
          "cannnot access attribute '" ++ a ++ "' for " ++ pyStr v2)) := by
  constructor
  · intro ga nk a sym reEval st hb
    simp only [attrCore, hb, Bool.not_true, Bool.false_eq_true, if_false]
  · intro m ln ve a st v st1 v2 st2 hstop habort herr hr0 hint hb hv1 hv2
      herr2
    have e0 : runExpr (m + 2) (.attrE ln ve a true) st =
        step_runExpr (interpAt (m + 1)) (.attrE ln ve a true) st := rfl
    rw [e0]
    simp only [step_runExpr, hstop, habort, herr, hr0, hint,
      List.isEmpty_nil, Bool.not_true, Bool.false_eq_true, if_false]
    have e1 : (interpAt (m + 1)).dispatchExpr (.attrE ln ve a true) st =
        step_dispatchExpr (interpAt m) (.attrE ln ve a true) st := rfl
    rw [e1]
    simp only [step_dispatchExpr, interp_runExpr, Bool.not_true,
      Bool.false_eq_true, if_false]
    rw [hv1]
    simp only [ERes.bind, attrCore, hb, Bool.not_true, Bool.false_eq_true,
      if_false]
    rw [hv2]
    simp only [ERes.bind]
    have hm : ("cannnot access attribute '" ++ a ++ "' for " ++ pyStr v2)
        ≠ "" := by
      apply strAppend_ne_empty
      apply strAppend_ne_empty
      apply strAppend_ne_empty
      decide
    exact raisedWrapped_spec (.nodeK ln) (nkOfExpr (.attrE ln ve a true))
      .attrErr _ none none 0 st2 herr2 hm

theorem c7_witness :
    ((runExpr 10 (.attrE 1 (.constE 1 (.intC 3)) "__class__" true)
        initState).exnCls = some .attrErr) ∧
    ((runExpr 10 (.attrE 1 (.constE 1 (.intC 3)) "__class__" true)
        initState).headInfo =
      some (some .attrErr,
        "cannnot access attribute '__class__' for 3")) := by
  have h := c7_attr_blocklist.2 8 1 (.constE 1 (.intC 3)) "__class__"
    initState (.intV 3) initState (.intV 3) initState
    rfl rfl rfl rfl rfl (by decide) rfl rfl rfl
  exact h

theorem raisedWrappedNone_spec (nk2 : NodeK) (msg : String)
    (exa exa2 : Option String) (lnn tln : Nat) (st : IState)
    (herr : st.errors = []) (hm : msg ≠ "") (htln : tln ≠ 0) :
    ((wrapRaise true nk2 exa2
        (ERes.ofRaise (raiseExc (.nodeK tln) none msg exa lnn none
          st))).exnCls = some .typeErr) ∧
    ((wrapRaise true nk2 exa2
        (ERes.ofRaise (raiseExc (.nodeK tln) none msg exa lnn none
          st))).headInfo = some (none, msg)) ∧
    ((wrapRaise true nk2 exa2
        (ERes.ofRaise (raiseExc (.nodeK tln) none msg exa lnn none
          st))).symtabOf =
      some (sset st.symtable "errline_" (.intV tln))) := by
  have hml : 0 < msg.length := by
    cases hmsg : msg.data with
    | nil =>
      exact absurd (by cases msg; cases hmsg; rfl) hm
    | cons a tl =>
      show 0 < msg.data.length
      rw [hmsg]
      simp
  have hwl : ¬(0 < ("" : String).length) := by decide
  cases nk2 <;>
    simp [raiseExc, mkHolder, setHeadMsg, wrapRaise, ERes.ofRaise,
      ERes.exnCls, ERes.headInfo, ERes.stateOf, ERes.symtabOf,
      herr, hm, hml, htln, hwl]

/-- The script `foo_ = 1` (an assignment statement on line 2). -/
def c1_prog : List Stmt :=
  [.assignS 2 [.nameT 2 "foo_"] (.constE 2 (.intC 1))]

/-- C1 counterexample: assigning to `foo_` does raise a `NameError`-kind
fault and leaves `foo_` unbound, but the fault recording itself rebinds
`errline_` — a symbol-table entry whose name ends in `_` — from `0` to
the faulting line `2`.  So after the statement the table does have a
changed binding for a name ending in `_`, refuting the claim's
"no new or changed binding for any name ending in '_'". -/
theorem c1_counterexample :
    (strEndsWith "foo_" "_" = true) ∧
    (strEndsWith "errline_" "_" = true) ∧
    (sget initState.symtable "errline_" = some (.intV 0)) ∧
    ((runScript 8 c1_prog initState).exnCls = some .nameErr) ∧
    ((runScript 8 c1_prog initState).tabGet "errline_" =
      some (some (.intV 2))) ∧
    ((runScript 8 c1_prog initState).tabGet "foo_" = some none) := by
  refine ⟨by decide, by decide, rfl, rfl, rfl, rfl⟩

theorem symtab_pointwise (r : ERes Value) (t0 : Smap) (tln : Int)
    (h : r.symtabOf = some (sset t0 "errline_" (.intV tln)))
    (k : String) (hk : k ≠ "errline_") :
    r.symtabOf.map (fun t => sget t k) = some (sget t0 k) := by
  rw [h]
  simp [sget_sset, hk]

/-- C1 (amended): a script-level assignment, function definition, or
deletion whose target name ends in `_` always faults without binding or
removing the target — assignment and function definition raise a
`NameError`-kind fault, deletion records a classless fault (surfacing as
a native `TypeError`) — and the only symbol-table change is the host
bookkeeping entry `errline_` being set to the faulting line; every other
key keeps its prior value. -/
theorem c1_underscore_amended :
    (∀ (m sl tln : Nat) (id : String) (value : Expr) (st : IState)
       (v : Value) (st1 : IState),
      st.stopF = false → st.abortF = false → st.errors = [] →
      st.retval = none → st.interrupt = .noneI →
      strEndsWith id "_" = true → tln ≠ 0 →
      runExpr (m + 2) value st = .ok v st1 → st1.errors = [] →
      ((runStmt (m + 4) true none none
          (.assignS sl [.nameT tln id] value) st).exnCls =
        some .nameErr) ∧
      ((runStmt (m + 4) true none none
          (.assignS sl [.nameT tln id] value) st).headInfo =
        some (some .nameErr,
          "invalid symbol name (reserved word?) " ++ id)) ∧
      ((runStmt (m + 4) true none none
          (.assignS sl [.nameT tln id] value) st).symtabOf =
        some (sset st1.symtable "errline_" (.intV tln))) ∧
      (∀ k, k ≠ "errline_" →
        ((runStmt (m + 4) true none none
            (.assignS sl [.nameT tln id] value) st).symtabOf.map
          (fun t => sget t k)) = some (sget st1.symtable k))) ∧
    (∀ (m tln : Nat) (fname : String) (args : List String)
       (defaults : List Expr) (vararg varkws : Option String)
       (body : List Stmt) (st : IState),
      st.stopF = false → st.abortF = false → st.errors = [] →
      st.retval = none → st.interrupt = .noneI →
      strEndsWith fname "_" = true → tln ≠ 0 →
      ((runStmt (m + 2) true none none
          (.functiondefS tln fname args defaults vararg varkws body)
          st).exnCls = some .nameErr) ∧
      ((runStmt (m + 2) true none none
          (.functiondefS tln fname args defaults vararg varkws body)
          st).headInfo =
        some (some .nameErr,
          "invalid function name (reserved word?): '" ++ fname ++ "'")) ∧
      ((runStmt (m + 2) true none none
          (.functiondefS tln fname args defaults vararg varkws body)
          st).symtabOf =
        some (sset st.symtable "errline_" (.intV tln))) ∧
      (∀ k, k ≠ "errline_" →
        ((runStmt (m + 2) true none none
            (.functiondefS tln fname args defaults vararg varkws body)
            st).symtabOf.map
          (fun t => sget t k)) = some (sget st.symtable k))) ∧
    (∀ (m sl : Nat) (id : String) (rest : List String) (st : IState),
      st.stopF = false → st.abortF = false → st.errors = [] →
      st.retval = none → st.interrupt = .noneI →
      strEndsWith id "_" = true → sl ≠ 0 →
      ((runStmt (m + 3) true none none
          (.deleteS sl (id :: rest)) st).exnCls = some .typeErr) ∧
      ((runStmt (m + 3) true none none
          (.deleteS sl (id :: rest)) st).headInfo =
        some (none, "could not delete embedded proc: " ++ id)) ∧
      ((runStmt (m + 3) true none none
          (.deleteS sl (id :: rest)) st).symtabOf =
        some (sset st.symtable "errline_" (.intV sl))) ∧
      (∀ k, k ≠ "errline_" →
        ((runStmt (m + 3) true none none
            (.deleteS sl (id :: rest)) st).symtabOf.map
          (fun t => sget t k)) = some (sget st.symtable k))) := by
  refine ⟨?_, ?_, ?_⟩
  · intro m sl tln id value st v st1 hstop habort herr hr0 hint hid htln
      hval herr1
    have hvalid : valid_symbol_name id = false := by
      simp [valid_symbol_name, hid]
    have hmsg : ("invalid symbol name (reserved word?) " ++ id) ≠ "" :=
      strAppend_ne_empty _ _ (by decide)
    have e0 : runStmt (m + 4) true none none
        (.assignS sl [.nameT tln id] value) st =
        step_runStmt (interpAt (m + 3)) true none none
          (.assignS sl [.nameT tln id] value) st := rfl
    rw [e0]
    simp only [step_runStmt, hstop, habort, herr, hr0, hint,
      List.isEmpty_nil, Bool.not_true, Bool.false_eq_true, if_false]
    have e1 : (interpAt (m + 3)).dispatchStmt
        (.assignS sl [.nameT tln id] value) st =
        step_dispatchStmt (interpAt (m + 2))
          (.assignS sl [.nameT tln id] value) st := rfl
    rw [e1]
    simp only [step_dispatchStmt, interp_runExpr, interp_assignTargets]
    rw [hval]
    simp only [ERes.bind]
    have e2 : assignTargets (m + 2) [Target.nameT tln id] v st1 =
        step_assignTargets (interpAt (m + 1))
          [Target.nameT tln id] v st1 := rfl
    rw [e2]
    simp only [step_assignTargets, interp_nodeAssign]
    have e3 : nodeAssign (m + 1) (.nameT tln id) v st1 =
        step_nodeAssign (interpAt m) (.nameT tln id) v st1 := rfl
    rw [e3]
    simp only [step_nodeAssign, hvalid, Bool.not_false, Bool.true_or,
      if_true, ERes.ofRaise, ERes.bind]
    have H := raisedWrappedNode_spec
      (stmtNodeK (.assignS sl [.nameT tln id] value)) .nameErr
      ("invalid symbol name (reserved word?) " ++ id) none none 0 tln st1
      herr1 hmsg htln
    exact ⟨H.1, H.2.1, H.2.2.1,
      fun k hk => symtab_pointwise _ _ _ H.2.2.1 k hk⟩
  · intro m tln fname args defaults vararg varkws body st hstop habort
      herr hr0 hint hid htln
    have hvalid : valid_symbol_name fname = false := by
      simp [valid_symbol_name, hid]
    have hmsg : ("invalid function name (reserved word?): '" ++ fname ++
        "'") ≠ "" := by
      apply strAppend_ne_empty
      apply strAppend_ne_empty
      decide
    have e0 : runStmt (m + 2) true none none
        (.functiondefS tln fname args defaults vararg varkws body) st =
        step_runStmt (interpAt (m + 1)) true none none
          (.functiondefS tln fname args defaults vararg varkws body)
          st := rfl
    rw [e0]
    simp only [step_runStmt, hstop, habort, herr, hr0, hint,
      List.isEmpty_nil, Bool.not_true, Bool.false_eq_true, if_false]
    have e1 : (interpAt (m + 1)).dispatchStmt
        (.functiondefS tln fname args defaults vararg varkws body) st =
        step_dispatchStmt (interpAt m)
          (.functiondefS tln fname args defaults vararg varkws body)
          st := rfl
    rw [e1]
    simp only [step_dispatchStmt, hvalid, Bool.not_false, Bool.true_or,
      if_true, ERes.ofRaise]
    have H := raisedWrappedNode_spec
      (stmtNodeK
        (.functiondefS tln fname args defaults vararg varkws body))
      .nameErr
      ("invalid function name (reserved word?): '" ++ fname ++ "'")
      none none 0 tln st herr hmsg htln
    exact ⟨H.1, H.2.1, H.2.2.1,
      fun k hk => symtab_pointwise _ _ _ H.2.2.1 k hk⟩
  · intro m sl id rest st hstop habort herr hr0 hint hid hsl
    have hmsg : ("could not delete embedded proc: " ++ id) ≠ "" :=
      strAppend_ne_empty _ _ (by decide)
    have e0 : runStmt (m + 3) true none none (.deleteS sl (id :: rest))
        st =
        step_runStmt (interpAt (m + 2)) true none none
          (.deleteS sl (id :: rest)) st := rfl
    rw [e0]
    simp only [step_runStmt, hstop, habort, herr, hr0, hint,
      List.isEmpty_nil, Bool.not_true, Bool.false_eq_true, if_false]
    have e1 : (interpAt (m + 2)).dispatchStmt (.deleteS sl (id :: rest))
        st =
        step_dispatchStmt (interpAt (m + 1)) (.deleteS sl (id :: rest))
          st := rfl
    rw [e1]
    simp only [step_dispatchStmt, interp_delLoop]
    have e2 : delLoop (m + 1) sl (id :: rest) st =
        step_delLoop (interpAt m) sl (id :: rest) st := rfl
    rw [e2]
    simp only [step_delLoop, hid, if_true, ERes.ofRaise]
    have H := raisedWrappedNone_spec (stmtNodeK (.deleteS sl (id :: rest)))
      ("could not delete embedded proc: " ++ id) none none 0 sl st
      herr hmsg hsl
    exact ⟨H.1, H.2.1, H.2.2,
      fun k hk => symtab_pointwise _ _ _ H.2.2 k hk⟩

theorem c1_witness :
    ((runStmt 4 true none none
        (.assignS 1 [.nameT 2 "foo_"] (.constE 1 (.intC 7)))
        initState).exnCls = some .nameErr) ∧
    ((runStmt 4 true none none
        (.assignS 1 [.nameT 2 "foo_"] (.constE 1 (.intC 7)))
        initState).symtabOf =
      some (sset initState.symtable "errline_" (.intV 2))) ∧
    ((runStmt 2 true none none
        (.functiondefS 3 "g_" [] [] none none []) initState).exnCls =
      some .nameErr) ∧
    ((runStmt 3 true none none (.deleteS 4 ["h_"]) initState).exnCls =
      some .typeErr) ∧
    ((runStmt 3 true none none (.deleteS 4 ["h_"]) initState).headInfo =
      some (none, "could not delete embedded proc: h_")) := by
  have h1 := c1_underscore_amended.1 0 1 2 "foo_" (.constE 1 (.intC 7))
    initState (.intV 7) initState rfl rfl rfl rfl rfl (by decide)
    (by decide) rfl rfl
  have h2 := c1_underscore_amended.2.1 0 3 "g_" [] [] none none []
    initState rfl rfl rfl rfl rfl (by decide) (by decide)
  have h3 := c1_underscore_amended.2.2 0 4 "h_" [] initState
    rfl rfl rfl rfl rfl (by decide) (by decide)
  exact ⟨h1.1, h1.2.2.1, h2.1, h3.1, h3.2.1⟩

/-- The script `try: raise ValueError('x') / finally: marker = 1` with
no `except` clause. -/
def c3_prog : List Stmt :=
  [.tryS 1
    [.raiseS 2
      (.callE 2 (.nameE 2 "ValueError") [.constE 2 (.strC "x")] []) none]
    [] []
    [.assignS 4 [.nameT 4 "marker"] (.constE 4 (.intC 1))]]

/-- C3 counterexample: in `try: raise ValueError('x') finally:
marker = 1` with no matching handler, the `ValueError` fault is recorded
(one pending record, class `ValueError`, message `x`) but `marker` is
never bound: each statement of the `finally` body is dispatched through
`run()`, whose preamble returns `None` without executing anything while
`len(self.error) > 0`.  So the `finally` block's statements are not
executed when an unhandled fault is pending, refuting "executed exactly
once regardless of outcome". -/
theorem c3_counterexample :
    ((runScript 20 c3_prog initState).tabGet "marker" = some none) ∧
    ((runScript 20 c3_prog initState).errCount = some 1) ∧
    ((runScript 20 c3_prog initState).headInfo =
      some (some .valueErr, "x")) ∧
    ((runScript 20 c3_prog initState).okV = some .noneV) := by
  exact ⟨rfl, rfl, rfl, rfl⟩

/-- `try: raise ValueError('x') except ValueError: pass finally:
marker = 1`. -/
def c3_prog_handled : List Stmt :=
  [.tryS 1
    [.raiseS 2
      (.callE 2 (.nameE 2 "ValueError") [.constE 2 (.strC "x")] []) none]
    [.mk (some "ValueError") none [.passS 3]] []
    [.assignS 4 [.nameT 4 "marker"] (.constE 4 (.intC 1))]]

/-- `try: pass finally: marker = 1`. -/
def c3_prog_clean : List Stmt :=
  [.tryS 1 [.passS 2] [] []
    [.assignS 4 [.nameT 4 "marker"] (.constE 4 (.intC 1))]]

/-- `try: raise ValueError('x') except ValueError: undefined finally:
marker = 1` — the matched handler's body itself faults. -/
def c3_prog_hraise : List Stmt :=
  [.tryS 1
    [.raiseS 2
      (.callE 2 (.nameE 2 "ValueError") [.constE 2 (.strC "x")] []) none]
    [.mk (some "ValueError") none [.exprS 3 (.nameE 3 "undefined")]] []
    [.assignS 4 [.nameT 4 "marker"] (.constE 4 (.intC 1))]]

/-- C3 (amended): `on_try` reaches its `finalbody` loop exactly when the
body loop and — with no errors — the `orelse` loop complete without a
native unwind; this is proved generally for both outcomes of the body
loop (and with the `orelse` body universally quantified and unused in
the handled-fault case, showing it is never consulted then).  Each
`finally` statement then actually executes only when no fault is left
pending: with a nonempty fault list, running any statement sequence
returns `None` with the state unchanged (the pending-fault gate).  A
fault raised inside a matched handler's body unwinds natively past the
whole `try`, so `finalbody` is never reached and `marker` stays
unbound; the clean-body and handled-fault runs both set `marker = 1`
exactly once. -/
theorem c3_finally_amended :
    (∀ (m ln : Nat) (body : List Stmt) (handlers : List Handler)
       (orelse finalbody : List Stmt) (st st1 st2 st3 : IState)
       (v2 v3 : Value),
      st.stopF = false → st.abortF = false → st.errors = [] →
      st.retval = none → st.interrupt = .noneI →
      tryLoop m body handlers true st = .ok true st1 →
      runSeq m orelse st1 = .ok v2 st2 →
      runSeq m finalbody st2 = .ok v3 st3 →
      runStmt (m + 2) true none none
        (.tryS ln body handlers orelse finalbody) st =
        .ok .noneV st3) ∧
    (∀ (m ln : Nat) (body : List Stmt) (handlers : List Handler)
       (orelse finalbody : List Stmt) (st st1 st3 : IState) (v3 : Value),
      st.stopF = false → st.abortF = false → st.errors = [] →
      st.retval = none → st.interrupt = .noneI →
      tryLoop m body handlers true st = .ok false st1 →
      runSeq m finalbody st1 = .ok v3 st3 →
      runStmt (m + 2) true none none
        (.tryS ln body handlers orelse finalbody) st =
        .ok .noneV st3) ∧
    (∀ (ss : List Stmt) (st : IState) (fuel : Nat),
      st.stopF = false → st.abortF = false → st.errors ≠ [] →
      ss.length + 2 ≤ fuel →
      runSeq fuel ss st = .ok .noneV st) ∧
    (((runScript 20 c3_prog_handled initState).tabGet "marker" =
        some (some (.intV 1))) ∧
      ((runScript 20 c3_prog_handled initState).errCount = some 0)) ∧
    (((runScript 20 c3_prog_clean initState).tabGet "marker" =
        some (some (.intV 1))) ∧
      ((runScript 20 c3_prog_clean initState).errCount = some 0)) ∧
    (((runScript 30 c3_prog_hraise initState).exnCls =
        some .nameErr) ∧
      ((runScript 30 c3_prog_hraise initState).tabGet "marker" =
        some none)) := by
  refine ⟨?_, ?_, ?_, ⟨rfl, rfl⟩, ⟨rfl, rfl⟩, ⟨rfl, rfl⟩⟩
  · intro m ln body handlers orelse finalbody st st1 st2 st3 v2 v3
      hstop habort herr hr0 hint htl hoe hfin
    have e0 : runStmt (m + 2) true none none
        (.tryS ln body handlers orelse finalbody) st =
        step_runStmt (interpAt (m + 1)) true none none
          (.tryS ln body handlers orelse finalbody) st := rfl
    rw [e0]
    simp only [step_runStmt, hstop, habort, herr, hr0, hint,
      List.isEmpty_nil, Bool.not_true, Bool.false_eq_true, if_false]
    have e1 : (interpAt (m + 1)).dispatchStmt
        (.tryS ln body handlers orelse finalbody) st =
        step_dispatchStmt (interpAt m)
          (.tryS ln body handlers orelse finalbody) st := rfl
    rw [e1]
    simp only [step_dispatchStmt, interp_tryLoop, interp_runSeq]
    rw [htl]
    simp only [ERes.bind, if_true]
    rw [hoe]
    simp only [ERes.bind]
    rw [hfin]
    simp only [ERes.bind, wrapRaise]
  · intro m ln body handlers orelse finalbody st st1 st3 v3
      hstop habort herr hr0 hint htl hfin
    have e0 : runStmt (m + 2) true none none
        (.tryS ln body handlers orelse finalbody) st =
        step_runStmt (interpAt (m + 1)) true none none
          (.tryS ln body handlers orelse finalbody) st := rfl
    rw [e0]
    simp only [step_runStmt, hstop, habort, herr, hr0, hint,
      List.isEmpty_nil, Bool.not_true, Bool.false_eq_true, if_false]
    have e1 : (interpAt (m + 1)).dispatchStmt
        (.tryS ln body handlers orelse finalbody) st =
        step_dispatchStmt (interpAt m)
          (.tryS ln body handlers orelse finalbody) st := rfl
    rw [e1]
    simp only [step_dispatchStmt, interp_tryLoop, interp_runSeq]
    rw [htl]
    simp only [ERes.bind, Bool.false_eq_true, if_false]
    rw [hfin]
    simp only [ERes.bind, wrapRaise]
  · intro ss
    induction ss with
    | nil =>
      intro st fuel hstop habort herr hf
      obtain ⟨g, rfl⟩ : ∃ g, fuel = g + 2 := ⟨fuel - 2, by omega⟩
      rfl
    | cons s tl ih =>
      intro st fuel hstop habort herr hf
      obtain ⟨g, rfl⟩ : ∃ g, fuel = g + 2 :=
        ⟨fuel - 2, by simp at hf; omega⟩
      have hne : st.errors.isEmpty = false := by
        cases he : st.errors with
        | nil => exact absurd he herr
        | cons a b => rfl
      have e0 : runSeq (g + 2) (s :: tl) st =
          step_runSeq (interpAt (g + 1)) (s :: tl) st := rfl
      rw [e0]
      simp only [step_runSeq, interp_runStmt]
      have e1 : runStmt (g + 1) true none none s st =
          step_runStmt (interpAt g) true none none s st := rfl
      rw [e1]
      simp only [step_runStmt, hstop, habort, hne, Bool.not_false,
        if_true, ERes.bind]
      cases tl with
      | nil => rfl
      | cons s2 tl2 =>
        have := ih st (g + 1) hstop habort herr (by simp at hf ⊢; omega)
        simpa using this

/-- A state with one pending `ValueError` fault record. -/
def c3_pending : IState :=
  { initState with errors := [mkHolder (some .valueErr) "x" none 2 none] }

/-- State after the clean-body witness run's `finally` assignment. -/
def c3w_st3 : IState :=
  { initState with
      symtable := sset initState.symtable "marker" (.intV 1),
      noDeepcopy := initState.noDeepcopy.erase "marker" }

/-- State left by the witness `try` body whose lone statement faults on
the unbound name `undefined` (handled by the bare `except`): the fault
records are cleared by the matching handler, `errline_` points at the
faulting line and the raise bookkeeping remains. -/
def c3w_st1 : IState :=
  { initState with
      symtable := sset initState.symtable "errline_" (.intV 2),
      errors := [],
      errorMsg := some "name 'undefined' is not defined at line 2",
      interrupt := .raisedI }

/-- `c3w_st1` after the `finally` assignment `marker = 1`. -/
def c3w_st4 : IState :=
  { c3w_st1 with
      symtable := sset c3w_st1.symtable "marker" (.intV 1),
      noDeepcopy := c3w_st1.noDeepcopy.erase "marker" }

theorem c3_witness :
    (runStmt 8 true none none
      (.tryS 1 [.passS 2] [] []
        [.assignS 4 [.nameT 4 "marker"] (.constE 4 (.intC 1))])
      initState = .ok .noneV c3w_st3) ∧
    (runStmt 10 true none none
      (.tryS 1 [.exprS 2 (.nameE 2 "undefined")] [.mk none none []]
        [.assignS 9 [.nameT 9 "flag2"] (.constE 9 (.intC 1))]
        [.assignS 4 [.nameT 4 "marker"] (.constE 4 (.intC 1))])
      initState = .ok .noneV c3w_st4) ∧
    (runSeq 3 [.assignS 4 [.nameT 4 "marker"] (.constE 4 (.intC 1))]
      c3_pending = .ok .noneV c3_pending) := by
  refine ⟨?_, ?_, ?_⟩
  · exact c3_finally_amended.1 6 1 [.passS 2] [] []
      [.assignS 4 [.nameT 4 "marker"] (.constE 4 (.intC 1))]
      initState initState initState c3w_st3 .noneV .noneV
      rfl rfl rfl rfl rfl rfl rfl rfl
  · exact c3_finally_amended.2.1 8 1 [.exprS 2 (.nameE 2 "undefined")]
      [.mk none none []]
      [.assignS 9 [.nameT 9 "flag2"] (.constE 9 (.intC 1))]
      [.assignS 4 [.nameT 4 "marker"] (.constE 4 (.intC 1))]
      initState c3w_st1 c3w_st4 .noneV
      rfl rfl rfl rfl rfl rfl rfl
  · exact c3_finally_amended.2.2.1
      [.assignS 4 [.nameT 4 "marker"] (.constE 4 (.intC 1))]
      c3_pending 3 rfl rfl (by simp [c3_pending, mkHolder]) (by decide)

/-- `for i in range(3): continue / else: flag = True`. -/
def c9_prog_continue : List Stmt :=
  [.forS 1 (.nameT 1 "i")
    (.callE 1 (.nameE 1 "range") [.constE 1 (.intC 3)] [])
    [.continueS 2]
    [.assignS 4 [.nameT 4 "flag"] (.constE 4 (.boolC true))]]

/-- `for i in range(3): pass / else: flag = True`. -/
def c9_prog_pass : List Stmt :=
  [.forS 1 (.nameT 1 "i")
    (.callE 1 (.nameE 1 "range") [.constE 1 (.intC 3)] [])
    [.passS 2]
    [.assignS 4 [.nameT 4 "flag"] (.constE 4 (.boolC true))]]

/-- C9 counterexample: `for i in range(3): continue else: flag = True`
exhausts its three iterations without any `break`, yet `flag` stays
unbound and no fault is recorded — the `Continue` interrupt set by the
last iteration is still pending when the `orelse` statements are
dispatched, and `run()`'s preamble returns the interrupt without
executing them.  The same loop with `pass` instead of `continue` does
set `flag`, so "normal exhaustion (no Break) runs `orelse` once" is
refuted for bodies whose last executed statement is `continue`. -/
theorem c9_counterexample :
    ((runScript 30 c9_prog_continue initState).tabGet "flag" =
      some none) ∧
    ((runScript 30 c9_prog_continue initState).errCount = some 0) ∧
    ((runScript 30 c9_prog_continue initState).tabGet "i" =
      some (some (.intV 2))) ∧
    ((runScript 30 c9_prog_pass initState).tabGet "flag" =
      some (some (.boolV true))) := by
  exact ⟨rfl, rfl, rfl, rfl⟩

/-- `for i in range(3): break / else: flag = True`. -/
def c9_prog_break : List Stmt :=
  [.forS 1 (.nameT 1 "i")
    (.callE 1 (.nameE 1 "range") [.constE 1 (.intC 3)] [])
    [.breakS 2]
    [.assignS 4 [.nameT 4 "flag"] (.constE 4 (.boolC true))]]

/-- C9 (amended): `break` ends a `for` or `while` loop without running
its `orelse` — proved generally: when the iteration loop reports a
`Break`, the statement's result is `None` with the interrupt cleared,
uniformly in the `orelse` body, so the `orelse` is never consulted.
Exhaustion with no pending interrupt runs `orelse` once (`pass` body:
`flag` is set; `break` body: `flag` stays unbound).  But a `Continue`
pending from the body's last iteration survives to the loop exit, and
`run()`'s preamble then returns it for every `orelse` statement without
executing any — stated generally as the interrupt gate. -/
theorem c9_loop_else_amended :
    (∀ (m ln : Nat) (target : Target) (iter : Expr) (body : List Stmt)
       (orelse : List Stmt) (st : IState) (itv : Value) (st1 : IState)
       (vals : List Value) (st2 : IState),
      st.stopF = false → st.abortF = false → st.errors = [] →
      st.retval = none → st.interrupt = .noneI →
      runExpr m iter st = .ok itv st1 →
      iterElems itv = some vals →
      forIter m target body vals st1 = .ok true st2 →
      runStmt (m + 2) true none none
        (.forS ln target iter body orelse) st =
        .ok .noneV { st2 with interrupt := .noneI }) ∧
    (∀ (m ln : Nat) (test : Expr) (body orelse : List Stmt)
       (st st2 : IState),
      st.stopF = false → st.abortF = false → st.errors = [] →
      st.retval = none → st.interrupt = .noneI →
      whileLoop m test body st = .ok true st2 →
      runStmt (m + 2) true none none (.whileS ln test body orelse) st =
        .ok .noneV { st2 with interrupt := .noneI }) ∧
    (∀ (ss : List Stmt) (st : IState) (fuel : Nat),
      st.stopF = false → st.abortF = false → st.errors = [] →
      st.retval = none → st.interrupt = .contI →
      ss.length + 2 ≤ fuel →
      ∃ v, runSeq fuel ss st = .ok v st) ∧
    (((runScript 30 c9_prog_pass initState).tabGet "flag" =
        some (some (.boolV true))) ∧
      ((runScript 30 c9_prog_pass initState).errCount = some 0)) ∧
    (((runScript 30 c9_prog_break initState).tabGet "flag" =
        some none) ∧
      ((runScript 30 c9_prog_break initState).errCount = some 0)) := by
  refine ⟨?_, ?_, ?_, ⟨rfl, rfl⟩, ⟨rfl, rfl⟩⟩
  · intro m ln target iter body orelse st itv st1 vals st2 hstop habort
      herr hr0 hint hiter helems hfor
    have e0 : runStmt (m + 2) true none none
        (.forS ln target iter body orelse) st =
        step_runStmt (interpAt (m + 1)) true none none
          (.forS ln target iter body orelse) st := rfl
    rw [e0]
    simp only [step_runStmt, hstop, habort, herr, hr0, hint,
      List.isEmpty_nil, Bool.not_true, Bool.false_eq_true, if_false]
    have e1 : (interpAt (m + 1)).dispatchStmt
        (.forS ln target iter body orelse) st =
        step_dispatchStmt (interpAt m)
          (.forS ln target iter body orelse) st := rfl
    rw [e1]
    simp only [step_dispatchStmt, interp_runExpr, interp_forIter]
    rw [hiter]
    simp only [ERes.bind]
    rw [helems]
    simp only [ERes.bind]
    rw [hfor]
    simp only [ERes.bind, if_true, wrapRaise]
  · intro m ln test body orelse st st2 hstop habort herr hr0 hint hwhile
    have e0 : runStmt (m + 2) true none none
        (.whileS ln test body orelse) st =
        step_runStmt (interpAt (m + 1)) true none none
          (.whileS ln test body orelse) st := rfl
    rw [e0]
    simp only [step_runStmt, hstop, habort, herr, hr0, hint,
      List.isEmpty_nil, Bool.not_true, Bool.false_eq_true, if_false]
    have e1 : (interpAt (m + 1)).dispatchStmt
        (.whileS ln test body orelse) st =
        step_dispatchStmt (interpAt m)
          (.whileS ln test body orelse) st := rfl
    rw [e1]
    simp only [step_dispatchStmt, interp_whileLoop]
    rw [hwhile]
    simp only [ERes.bind, if_true, wrapRaise]
  · intro ss
    induction ss with
    | nil =>
      intro st fuel hstop habort herr hr0 hint hf
      obtain ⟨g, rfl⟩ : ∃ g, fuel = g + 2 := ⟨fuel - 2, by omega⟩
      exact ⟨.noneV, rfl⟩
    | cons s tl ih =>
      intro st fuel hstop habort herr hr0 hint hf
      obtain ⟨g, rfl⟩ : ∃ g, fuel = g + 2 :=
        ⟨fuel - 2, by simp at hf; omega⟩
      have e0 : runSeq (g + 2) (s :: tl) st =
          step_runSeq (interpAt (g + 1)) (s :: tl) st := rfl
      have e1 : runStmt (g + 1) true none none s st =
          step_runStmt (interpAt g) true none none s st := rfl
      cases tl with
      | nil =>
        refine ⟨.interruptV false, ?_⟩
        rw [e0]
        simp only [step_runSeq, interp_runStmt]
        rw [e1]
        simp only [step_runStmt, hstop, habort, herr, hr0, hint,
          List.isEmpty_nil, Bool.not_true, Bool.false_eq_true, if_false,
          ERes.bind]
      | cons s2 tl2 =>
        obtain ⟨v, hv⟩ := ih st (g + 1) hstop habort herr hr0 hint
          (by simp at hf ⊢; omega)
        refine ⟨v, ?_⟩
        rw [e0]
        simp only [step_runSeq, interp_runStmt]
        rw [e1]
        simp only [step_runStmt, hstop, habort, herr, hr0, hint,
          List.isEmpty_nil, Bool.not_true, Bool.false_eq_true, if_false,
          ERes.bind]
        simpa [interp_runSeq] using hv

/-- State after `for i in [0]: break` assigns `i` and breaks. -/
def c9_st2 : IState :=
  { initState with
      symtable := sset initState.symtable "i" (.intV 0),
      noDeepcopy := initState.noDeepcopy.erase "i",
      interrupt := .brkI }

/-- State after `while True: break` breaks. -/
def c9_brkSt : IState := { initState with interrupt := .brkI }

/-- A clean state with a pending `Continue` interrupt. -/
def c9_contSt : IState := { initState with interrupt := .contI }

theorem c9_witness :
    (runStmt 7 true none none
      (.forS 1 (.nameT 1 "i") (.listE 1 [.constE 1 (.intC 0)])
        [.breakS 2]
        [.assignS 4 [.nameT 4 "flag"] (.constE 4 (.boolC true))])
      initState = .ok .noneV { c9_st2 with interrupt := .noneI }) ∧
    (runStmt 7 true none none
      (.whileS 1 (.constE 1 (.boolC true)) [.breakS 2]
        [.assignS 4 [.nameT 4 "flag"] (.constE 4 (.boolC true))])
      initState = .ok .noneV { c9_brkSt with interrupt := .noneI }) ∧
    (∃ v, runSeq 3
      [.assignS 4 [.nameT 4 "flag"] (.constE 4 (.boolC true))]
      c9_contSt = .ok v c9_contSt) := by
  refine ⟨?_, ?_, ?_⟩
  · exact c9_loop_else_amended.1 5 1 (.nameT 1 "i")
      (.listE 1 [.constE 1 (.intC 0)]) [.breakS 2]
      [.assignS 4 [.nameT 4 "flag"] (.constE 4 (.boolC true))]
      initState (.listV [.intV 0]) initState [.intV 0] c9_st2
      rfl rfl rfl rfl rfl rfl rfl rfl
  · exact c9_loop_else_amended.2.1 5 1 (.constE 1 (.boolC true))
      [.breakS 2]
      [.assignS 4 [.nameT 4 "flag"] (.constE 4 (.boolC true))]
      initState c9_brkSt rfl rfl rfl rfl rfl rfl
  · exact c9_loop_else_amended.2.2.1
      [.assignS 4 [.nameT 4 "flag"] (.constE 4 (.boolC true))]
      c9_contSt 3 rfl rfl rfl rfl rfl (by decide)

/-- The script `range = 1` (assignment to a readonly name, line 5). -/
def c6_prog : List Stmt :=
  [.assignS 5 [.nameT 5 "range"] (.constE 5 (.intC 1))]

/-- C6 counterexample: assigning to the readonly name `range` does fault
(a `NameError`-kind record) and `range` keeps its prior value, but the
symbol table is not left unchanged: recording the fault rebinds the
entry `errline_` from `0` to the faulting line `5`.  So "no other entry
is modified" is refuted — and `errline_` is itself a member of
`readonly_symbols`, modified by the very fault path that guards readonly
names. -/
theorem c6_counterexample :
    (initState.readonly.contains "errline_" = true) ∧
    (sget initState.symtable "errline_" = some (.intV 0)) ∧
    ((runScript 8 c6_prog initState).exnCls = some .nameErr) ∧
    ((runScript 8 c6_prog initState).tabGet "range" =
      some (some (.builtinV .rangeFn))) ∧
    ((runScript 8 c6_prog initState).tabGet "errline_" =
      some (some (.intV 5))) := by
  exact ⟨by decide, rfl, rfl, rfl, rfl⟩

/-- C6 (amended): an assignment whose target name is in
`readonly_symbols` raises a `NameError`-kind fault and never rebinds the
target; but the table is not left unchanged — the fault recording sets
the bookkeeping entry `errline_` (itself readonly) to the faulting line.
Every key other than `errline_` keeps the value it had after the
right-hand side evaluated. -/
theorem c6_readonly_amended :
    ∀ (m sl tln : Nat) (id : String) (value : Expr) (st : IState)
      (v : Value) (st1 : IState),
    st.stopF = false → st.abortF = false → st.errors = [] →
    st.retval = none → st.interrupt = .noneI →
    st1.readonly.contains id = true → tln ≠ 0 →
    runExpr (m + 2) value st = .ok v st1 → st1.errors = [] →
    ((runStmt (m + 4) true none none
        (.assignS sl [.nameT tln id] value) st).exnCls =
      some .nameErr) ∧
    ((runStmt (m + 4) true none none
        (.assignS sl [.nameT tln id] value) st).headInfo =
      some (some .nameErr,
        "invalid symbol name (reserved word?) " ++ id)) ∧
    ((runStmt (m + 4) true none none
        (.assignS sl [.nameT tln id] value) st).symtabOf =
      some (sset st1.symtable "errline_" (.intV tln))) ∧
    (∀ k, k ≠ "errline_" →
      ((runStmt (m + 4) true none none
          (.assignS sl [.nameT tln id] value) st).symtabOf.map
        (fun t => sget t k)) = some (sget st1.symtable k)) := by
  intro m sl tln id value st v st1 hstop habort herr hr0 hint hro htln
    hval herr1
  have hmsg : ("invalid symbol name (reserved word?) " ++ id) ≠ "" :=
    strAppend_ne_empty _ _ (by decide)
  have e0 : runStmt (m + 4) true none none
      (.assignS sl [.nameT tln id] value) st =
      step_runStmt (interpAt (m + 3)) true none none
        (.assignS sl [.nameT tln id] value) st := rfl
  rw [e0]
  simp only [step_runStmt, hstop, habort, herr, hr0, hint,
    List.isEmpty_nil, Bool.not_true, Bool.false_eq_true, if_false]
  have e1 : (interpAt (m + 3)).dispatchStmt
      (.assignS sl [.nameT tln id] value) st =
      step_dispatchStmt (interpAt (m + 2))
        (.assignS sl [.nameT tln id] value) st := rfl
  rw [e1]
  simp only [step_dispatchStmt, interp_runExpr, interp_assignTargets]
  rw [hval]
  simp only [ERes.bind]
  have e2 : assignTargets (m + 2) [Target.nameT tln id] v st1 =
      step_assignTargets (interpAt (m + 1))
        [Target.nameT tln id] v st1 := rfl
  rw [e2]
  simp only [step_assignTargets, interp_nodeAssign]
  have e3 : nodeAssign (m + 1) (.nameT tln id) v st1 =
      step_nodeAssign (interpAt m) (.nameT tln id) v st1 := rfl
  rw [e3]
  simp only [step_nodeAssign, hro, Bool.or_true, if_true, ERes.ofRaise,
    ERes.bind]
  have H := raisedWrappedNode_spec
    (stmtNodeK (.assignS sl [.nameT tln id] value)) .nameErr
    ("invalid symbol name (reserved word?) " ++ id) none none 0 tln st1
    herr1 hmsg htln
  exact ⟨H.1, H.2.1, H.2.2.1,
    fun k hk => symtab_pointwise _ _ _ H.2.2.1 k hk⟩

theorem c6_witness :
    ((runStmt 4 true none none
        (.assignS 5 [.nameT 5 "range"] (.constE 5 (.intC 1)))
        initState).exnCls = some .nameErr) ∧
    ((runStmt 4 true none none
        (.assignS 5 [.nameT 5 "range"] (.constE 5 (.intC 1)))
        initState).symtabOf =
      some (sset initState.symtable "errline_" (.intV 5))) := by
  have h := c6_readonly_amended 0 5 5 "range" (.constE 5 (.intC 1))
    initState (.intV 1) initState rfl rfl rfl rfl rfl (by decide)
    (by decide) rfl rfl
  exact ⟨h.1, h.2.2.1⟩

/-- `res = [i*i for i in range(3)]` with `i` not previously bound. -/
def c5_prog : List Stmt :=
  [.assignS 1 [.nameT 1 "res"]
    (.listcompE 1 (.binopE 1 .mult (.nameE 1 "i") (.nameE 1 "i"))
      [.mk 1 "i" (.callE 1 (.nameE 1 "range") [.constE 1 (.intC 3)] [])
        []])]

/-- C5 counterexample: `res = [i*i for i in range(3)]` evaluates to
`[0, 1, 4]`, but the comprehension target `i` — absent from the table
before the statement — is left bound to `2` afterwards.  `on_listcomp`
never removes a target name (its epilogue only writes back
`saved_syms`, which stays empty on every completing run), so a fresh
target leaks into the enclosing scope, refuting "every target name that
did not exist before is absent from the symbol table". -/
theorem c5_counterexample :
    (sget initState.symtable "i" = none) ∧
    ((runScript 30 c5_prog initState).tabGet "res" =
      some (some (.listV [.intV 0, .intV 1, .intV 4]))) ∧
    ((runScript 30 c5_prog initState).tabGet "i" =
      some (some (.intV 2))) ∧
    ((runScript 30 c5_prog initState).errCount = some 0) := by
  exact ⟨rfl, rfl, rfl, rfl⟩


theorem nativeWrapped_spec (nk2 : NodeK) (e : NativeExc)
    (exa2 : Option String) (st : IState) (herr : st.errors = []) :
    ((wrapRaise true nk2 exa2 (ERes.exn e st)).exnCls = some e.cls) ∧
    ((wrapRaise true nk2 exa2 (ERes.exn e st)).headInfo =
      some (some e.cls, e.msg)) ∧
    ((wrapRaise true nk2 exa2 (ERes.exn e st)).symtabOf =
      some st.symtable) ∧
    ((wrapRaise true nk2 exa2 (ERes.exn e st)).errCount = some 1) := by
  have hwl : ¬(0 < ("" : String).length) := by decide
  cases nk2 <;>
    simp [wrapRaise, raiseExc, mkHolder, setHeadMsg, ERes.ofRaise,
      ERes.exnCls, ERes.headInfo, ERes.stateOf, ERes.symtabOf,
      ERes.errCount, herr, hwl]

/-- C5 (amended): for a single-generator list comprehension with a valid
non-readonly target — if the target name is already bound in the table,
the comprehension never runs: the first-pass snapshot
`saved_syms[...] = copy.deepcopy(...)` raises a native `NameError`
(`asteval.py` never imports `copy`) which is wrapped into a fault, and
the symbol table is left exactly as it was (nothing is saved, nothing
restored).  If the target was not bound before, the comprehension
completes but the target is never removed: the final state is exactly
the state the passes left, so the target's last iteration binding leaks
into the enclosing scope. -/
theorem c5_listcomp_amended :
    (∀ (m ln tln : Nat) (tid : String) (iter : Expr) (ifs : List Expr)
       (elt : Expr) (st : IState),
      st.stopF = false → st.abortF = false → st.errors = [] →
      st.retval = none → st.interrupt = .noneI →
      valid_symbol_name tid = true → st.readonly.contains tid = false →
      shas st.symtable tid = true →
      ((runExpr (m + 2) (.listcompE ln elt [.mk tln tid iter ifs])
          st).exnCls = some .nameErr) ∧
      ((runExpr (m + 2) (.listcompE ln elt [.mk tln tid iter ifs])
          st).headInfo =
        some (some .nameErr, "name 'copy' is not defined")) ∧
      ((runExpr (m + 2) (.listcompE ln elt [.mk tln tid iter ifs])
          st).symtabOf = some st.symtable)) ∧
    (∀ (m ln tln : Nat) (tid : String) (iter : Expr) (ifs : List Expr)
       (elt : Expr) (st : IState) (locals : Smap) (st2 : IState)
       (out : List Value) (st3 : IState),
      st.stopF = false → st.abortF = false → st.errors = [] →
      st.retval = none → st.interrupt = .noneI →
      valid_symbol_name tid = true → st.readonly.contains tid = false →
      sget st.symtable tid = none →
      compPass2 m [.mk tln tid iter ifs] (sset [] tid (.listV [])) st =
        .ok locals st2 →
      compRec m elt locals st2 = .ok out st3 →
      runExpr (m + 2) (.listcompE ln elt [.mk tln tid iter ifs]) st =
        .ok (.listV out) st3) := by
  constructor
  · intro m ln tln tid iter ifs elt st hstop habort herr hr0 hint hvalid
      hro hpres
    have e0 : runExpr (m + 2) (.listcompE ln elt [.mk tln tid iter ifs])
        st =
        step_runExpr (interpAt (m + 1))
          (.listcompE ln elt [.mk tln tid iter ifs]) st := rfl
    rw [e0]
    simp only [step_runExpr, hstop, habort, herr, hr0, hint,
      List.isEmpty_nil, Bool.not_true, Bool.false_eq_true, if_false]
    have e1 : (interpAt (m + 1)).dispatchExpr
        (.listcompE ln elt [.mk tln tid iter ifs]) st =
        step_dispatchExpr (interpAt m)
          (.listcompE ln elt [.mk tln tid iter ifs]) st := rfl
    rw [e1]
    simp only [step_dispatchExpr, compPassOne, hvalid, hro, hpres,
      Bool.not_true, Bool.false_eq_true, Bool.or_self, if_false, if_true]
    have H := nativeWrapped_spec
      (nkOfExpr (.listcompE ln elt [.mk tln tid iter ifs]))
      ⟨.nameErr, "name 'copy' is not defined"⟩ none st herr
    exact ⟨H.1, H.2.1, H.2.2.1⟩
  · intro m ln tln tid iter ifs elt st locals st2 out st3 hstop habort
      herr hr0 hint hvalid hro hv0 hp2 hrec
    have hpres : shas st.symtable tid = false := by
      simp [shas, hv0]
    have e0 : runExpr (m + 2) (.listcompE ln elt [.mk tln tid iter ifs])
        st =
        step_runExpr (interpAt (m + 1))
          (.listcompE ln elt [.mk tln tid iter ifs]) st := rfl
    rw [e0]
    simp only [step_runExpr, hstop, habort, herr, hr0, hint,
      List.isEmpty_nil, Bool.not_true, Bool.false_eq_true, if_false]
    have e1 : (interpAt (m + 1)).dispatchExpr
        (.listcompE ln elt [.mk tln tid iter ifs]) st =
        step_dispatchExpr (interpAt m)
          (.listcompE ln elt [.mk tln tid iter ifs]) st := rfl
    rw [e1]
    simp only [step_dispatchExpr, compPassOne, hvalid, hro, hpres,
      Bool.not_true, Bool.false_eq_true, Bool.or_self, if_false,
      interp_compPass2, interp_compRec]
    rw [hp2]
    simp only [ERes.bind]
    rw [hrec]
    simp only [ERes.bind, wrapRaise, supdate]

/-- Enclosing state for the C5 witness's bound-target run: `i` bound to
`99`. -/
def c5w_st0 : IState :=
  { initState with symtable := sset initState.symtable "i" (.intV 99) }

/-- Second-pass state of the fresh-target witness run. -/
def c5w_fr2 : IState :=
  { initState with symtable := sset initState.symtable "i" (.intV 5) }

/-- Recursion-pass state of the fresh-target witness run. -/
def c5w_fr3 : IState :=
  { c5w_fr2 with symtable := sset c5w_fr2.symtable "i" (.intV 5) }

theorem c5_witness :
    (((runExpr 2 (.listcompE 1 (.nameE 1 "i")
        [.mk 1 "i" (.listE 1 [.constE 1 (.intC 5)]) []])
        c5w_st0).exnCls = some .nameErr) ∧
      ((runExpr 2 (.listcompE 1 (.nameE 1 "i")
        [.mk 1 "i" (.listE 1 [.constE 1 (.intC 5)]) []])
        c5w_st0).headInfo =
        some (some .nameErr, "name 'copy' is not defined")) ∧
      ((runExpr 2 (.listcompE 1 (.nameE 1 "i")
        [.mk 1 "i" (.listE 1 [.constE 1 (.intC 5)]) []])
        c5w_st0).symtabOf = some c5w_st0.symtable)) ∧
    ((runExpr 8 (.listcompE 1 (.nameE 1 "i")
        [.mk 1 "i" (.listE 1 [.constE 1 (.intC 5)]) []]) initState =
      .ok (.listV [.intV 5]) c5w_fr3) ∧
      sget c5w_fr3.symtable "i" = some (.intV 5)) := by
  constructor
  · exact c5_listcomp_amended.1 0 1 1 "i"
      (.listE 1 [.constE 1 (.intC 5)]) [] (.nameE 1 "i") c5w_st0
      rfl rfl rfl rfl rfl (by decide) (by decide) rfl
  · refine ⟨?_, rfl⟩
    exact c5_listcomp_amended.2 6 1 1 "i"
      (.listE 1 [.constE 1 (.intC 5)]) [] (.nameE 1 "i") initState
      [("i", .listV [.intV 5])] c5w_fr2 [.intV 5] c5w_fr3
      rfl rfl rfl rfl rfl (by decide) (by decide) rfl rfl rfl
